import Mathlib

/-!
Verification development for the real-time motion core of the Smoothieware
firmware snapshot (files `src/libs/StepTicker.cpp` and
`src/modules/robot/Stepper.cpp`).

The two C++ files are embedded shallowly:

* machine integers become `Nat` with explicit reductions `% 2 ^ 32` / `% 2 ^ 64`
  exactly where the C code relies on fixed-width behaviour;
* `float` quantities (rates in the trapezoid generator) become `ℚ`, computed
  exactly;
* the LPC17xx timer registers touched by the code (`MR0`, the `MCR` bits
  `MR1I`/`MR1R`/`MR1S`, the `TCR` enable bit) become explicit state fields, and
  the timer counter `TC` is an input of each interrupt invocation;
* the `StepperMotor` class is declared but not defined in this snapshot; the
  handful of its operations the two files call (`tick`, `unstep`, `move`,
  `set_speed`, `signal_move_finished`) are modelled from the specification and
  are marked as such in their doc comments.
-/

/-- Per-axis stepper-motor state.  The fields are the ones named by
`StepTicker.cpp` / `Stepper.cpp` and by the specification (§3, §4.1): the step
pin level, the Q32.32 fixed-point tick counter pair, the step counts, the
motion flags, the driver-enable flag, and the rate data used by the Stepper
module.  `rate_scale` is named `rate_ratio` in the source, and `speed` records
the last `set_speed` command. -/
structure SM where
  pin : Bool := false
  fx_ticks_per_step : Nat := 0
  fx_counter : Nat := 0
  stepped : Nat := 0
  steps_to_move : Nat := 0
  moving : Bool := false
  direction : Bool := false
  is_move_finished : Bool := false
  enabled : Bool := false
  rate_scale : ℚ := 0
  speed : ℚ := 0
deriving DecidableEq

/-- Pin events emitted by the step-ticker interrupt, in program order:
`assert i` when motor `i` raises its step pin inside `tick()`, `unstep i` when
`unstep()` lowers it. -/
inductive PinEv
  | assert (i : Fin 12)
  | unstep (i : Fin 12)
deriving DecidableEq

/-- Modelled from the spec: `StepperMotor::tick` (spec §4.1) — the body lives in
`StepperMotor.cpp`, which is not part of this snapshot.  Add `1 <<< 32` to the
Q32.32 accumulator with unsigned 64-bit semantics; when it reaches
`fx_ticks_per_step`, assert the step pin, count the step, subtract, and report
the pulse; when `stepped` reaches `steps_to_move`, mark the move finished.
Returns the updated motor, whether a pulse was asserted, and whether the move
finished on this tick. -/
def SM.tick (m : SM) : SM × Bool × Bool :=
  let c := (m.fx_counter + 2 ^ 32) % 2 ^ 64
  if m.fx_ticks_per_step ≤ c then
    let fin := if m.stepped + 1 = m.steps_to_move then true else m.is_move_finished
    ({ m with
        fx_counter := c - m.fx_ticks_per_step
        pin := true
        stepped := m.stepped + 1
        is_move_finished := fin }, true, fin)
  else
    ({ m with fx_counter := c }, false, false)

/-- Modelled from the spec: `StepperMotor::unstep` (spec §4.1) deasserts the
physical step pin; the body is in the absent `StepperMotor.cpp`. -/
def SM.unstep (m : SM) : SM := { m with pin := false }

/-- Modelled from the spec: `StepperMotor::move` (spec §4.1) — set `direction`
and `steps_to_move`, zero `stepped` and `fx_counter`, and set
`moving = (steps > 0)`; a zero-step move immediately marks the motor as not
moving (the end-of-move signal it fires is recorded as an event by the callers
modelled below). -/
def SM.move (m : SM) (dir : Bool) (steps : Nat) : SM :=
  { m with
    direction := dir
    steps_to_move := steps
    stepped := 0
    fx_counter := 0
    moving := decide (0 < steps) }

/-- Modelled from the spec: `StepperMotor::set_speed` (spec §4.1) stores the
commanded steps-per-second.  The derived `fx_ticks_per_step` value is computed
inside the absent `StepperMotor.cpp` from the step-ticker frequency; no claim
below inspects it after a `set_speed`, so only the commanded rate is kept. -/
def SM.set_speed (m : SM) (v : ℚ) : SM := { m with speed := v }

/-- `StepTicker` state (`StepTicker.cpp` plus the LPC17xx timer-0 registers the
file manipulates).  `motors` are the 12 slots the loops iterate
(`stepper_motors[0..11]`), `slot_id` gives the identity (pointer model) of the
motor registered in each slot for the `==` comparisons of the active-list
operations, `active_motor_bm` is the active bitmask, `mr0` the MR0 match
register, `mr1i`/`mr1r`/`mr1s` the `MCR` bits for MR1
interrupt/reset/stop-on-match, and `tcr_enabled` the `TCR` enable bit. -/
structure TState where
  motors : Fin 12 → SM
  slot_id : Fin 12 → Option Nat
  active_motor_bm : Nat
  reset_step_pins : Bool
  moves_finished : Bool
  period : Nat
  last_duration : Nat
  mr0 : Nat
  mr1i : Bool
  mr1r : Bool
  mr1s : Bool
  tcr_enabled : Bool

/-- `StepTicker::reset_tick` (source lines 133–145): call `unstep()` on every
active motor, slots in increasing order.  Returns the new state and the pin
events. -/
def StepTicker.reset_tick (s : TState) : TState × List PinEv :=
  ({ s with motors := fun i =>
      if s.active_motor_bm.testBit i.1 then SM.unstep (s.motors i) else s.motors i },
   (List.finRange 12).flatMap fun i =>
      if s.active_motor_bm.testBit i.1 then [PinEv.unstep i] else [])

/-- The MR0 step pass of `TIMER0_IRQHandler` (source lines 166–171): call
`tick()` on every active motor; each motor's pulse / completion reports
accumulate into the ticker's `reset_step_pins` / `moves_finished` flags (which
`tick()` only ever sets, never clears). -/
def StepTicker.tick_pass (s : TState) : TState × List PinEv :=
  let fired : Fin 12 → Bool := fun i => s.active_motor_bm.testBit i.1 && (SM.tick (s.motors i)).2.1
  let fin : Fin 12 → Bool := fun i => s.active_motor_bm.testBit i.1 && (SM.tick (s.motors i)).2.2
  ({ s with
      motors := fun i => if s.active_motor_bm.testBit i.1 then (SM.tick (s.motors i)).1 else s.motors i,
      reset_step_pins := s.reset_step_pins || (List.finRange 12).any fired,
      moves_finished := s.moves_finished || (List.finRange 12).any fin },
   (List.finRange 12).flatMap fun i => if fired i then [PinEv.assert i] else [])

/-- Clearing one slot's bit from `active_motor_bm` with the timer side effect of
`StepTicker::remove_motor_from_active_list` (source lines 276–279): when no
active motor remains, set the `MCR` bits MR1R and MR1S so the timer resets and
stops at the next `reset_tick`.  The mask `2 ^ 32 - 1 - 2 ^ i` is the 32-bit
complement of `1 <<< i`. -/
def StepTicker.remove_slot (s : TState) (i : Fin 12) : TState :=
  let bm := s.active_motor_bm &&& (2 ^ 32 - 1 - 2 ^ i.1)
  if bm = 0 then { s with active_motor_bm := bm, mr1r := true, mr1s := true }
  else { s with active_motor_bm := bm }

/-- Modelled from the spec: `StepperMotor::signal_move_finished` (the follow-up
pass of spec §4.1, body in the absent `StepperMotor.cpp`) — the move is over:
clear `moving`, and leave the active set (spec §3 invariant "a motor is in the
active set iff it has outstanding steps"; the source motor calls
`remove_motor_from_active_list` on its ticker).  `is_move_finished` is cleared
so the slot is not signalled twice.  The end-of-move callback's further effects
(block release, next-block setup) are outside this model. -/
def StepTicker.signal_slot (s : TState) (i : Fin 12) : TState :=
  let m2 := { s.motors i with
    moving := false
    is_move_finished := false }
  StepTicker.remove_slot { s with motors := Function.update s.motors i m2 } i

/-- `StepTicker::signal_moves_finished` (source lines 110–130): every active
motor whose move finished gets `signal_move_finished()`, then the
`moves_finished` flag is cleared.  The source loop rewinds its index to
re-examine a slot after the callback; with the modelled callback the slot has
just left the active set, so the re-examination is a no-op and a single
left-to-right pass over the 12 slots is equivalent. -/
def StepTicker.signal_moves_finished (s : TState) : TState :=
  { (List.finRange 12).foldl (fun t i =>
      if t.active_motor_bm.testBit i.1 && (t.motors i).is_move_finished then
        StepTicker.signal_slot t i
      else t) s with moves_finished := false }

/-- The per-motor bound of the overrun catch-up (source line 212): the 64-bit
unsigned difference `fx_ticks_per_step - fx_counter`, shifted right 32 bits and
truncated to 32 bits — the number of whole step-ticks this motor can sit out
without passing its next pulse. -/
def StepTicker.can_skip (m : SM) : Nat :=
  (((m.fx_ticks_per_step % 2 ^ 64 + 2 ^ 64 - m.fx_counter % 2 ^ 64) % 2 ^ 64) / 2 ^ 32) % 2 ^ 32

/-- `ticks_to_skip` of the overrun catch-up (source line 200). -/
def StepTicker.ticks_to_skip (s : TState) (tc : Nat) : Nat :=
  (tc + s.last_duration) / s.period

/-- `ticks_we_actually_can_skip` (source lines 203–214): the running minimum of
`ticks_to_skip` and every active motor's `can_skip` bound. -/
def StepTicker.ticks_we_can_skip (s : TState) (tc : Nat) : Nat :=
  (List.finRange 12).foldl
    (fun acc i => if s.active_motor_bm.testBit i.1 then min acc (StepTicker.can_skip (s.motors i)) else acc)
    (StepTicker.ticks_to_skip s tc)

/-- The overrun catch-up branch of `TIMER0_IRQHandler` (source lines 197–228),
entered when the timer counter exceeded `period` after a move finished.  Every
active motor's `fx_counter` is advanced by `ticks_we_can_skip <<< 32` with
unsigned 64-bit semantics, MR0 is reprogrammed to
`(ticks_to_skip + 1) * period` (a 32-bit register), and the measured duration
`tc2 - tc` of the computation is recorded when positive (`tc` and `tc2` are the
two timer-counter reads, entry and source line 227). -/
def StepTicker.catch_up (s : TState) (tc tc2 : Nat) : TState :=
  { s with
    motors := fun i =>
      if s.active_motor_bm.testBit i.1 then
        { s.motors i with fx_counter :=
            ((s.motors i).fx_counter + StepTicker.ticks_we_can_skip s tc * 2 ^ 32) % 2 ^ 64 }
      else s.motors i,
    mr0 := ((StepTicker.ticks_to_skip s tc + 1) * s.period) % 2 ^ 32,
    last_duration := if tc < tc2 then tc2 - tc else s.last_duration }

/-- The final `while (TC > MR0) MR0 += period` loop of the handler (source
lines 234–236), in closed form: bump MR0 by whole periods until it leads the
counter again (the source relies on `period > 0` for termination; 32-bit
wrap-around of MR0 is not modelled). -/
def StepTicker.bump_mr0 (tc mr0 period : Nat) : Nat :=
  if tc ≤ mr0 ∨ period = 0 then mr0
  else mr0 + ((tc - mr0 + period - 1) / period) * period

/-- `TIMER0_IRQHandler` (source lines 148–240).  `ir1` / `ir0` are the pending
MR1 / MR0 match flags; `tc` stands for the timer-counter reads at lines
195/197/200 (collapsed to one value) and `tc2` for the read at line 227.  The
MR1 block runs first: clear the `MCR` MR1-interrupt bit, then `reset_tick`.
The MR0 block ticks every active motor; if some pin was asserted it enables the
MR1 interrupt, otherwise it reprograms MR0 to `period` and returns; if a move
finished it parks MR0 at `~0U`, signals the finished motors, and either
catches up (counter beyond `period`) or restores `MR0 = period`, finally
bumping MR0 past the counter.  `mr0_finish` is that post-step-pass state
logic (source lines 173–238): it touches only the ticker state, never a pin, so
the pin events of an invocation are exactly the MR1 unsteps followed by the
MR0 asserts. -/
def StepTicker.mr0_finish (s2 : TState) (tc tc2 : Nat) : TState :=
  if s2.reset_step_pins then
    let s3 := { s2 with mr1i := true, reset_step_pins := false }
    if s3.moves_finished then
      let s4 := StepTicker.signal_moves_finished { s3 with mr0 := 2 ^ 32 - 1 }
      let s5 := if s4.period < tc then StepTicker.catch_up s4 tc tc2
                else { s4 with mr0 := s4.period }
      { s5 with mr0 := StepTicker.bump_mr0 tc s5.mr0 s5.period }
    else s3
  else { s2 with mr0 := s2.period }

def StepTicker.TIMER0_IRQHandler (s : TState) (ir1 ir0 : Bool) (tc tc2 : Nat) :
    TState × List PinEv :=
  let r1 := if ir1 then StepTicker.reset_tick { s with mr1i := false } else (s, [])
  if ir0 then
    let r2 := StepTicker.tick_pass r1.1
    (StepTicker.mr0_finish r2.1 tc tc2, r1.2 ++ r2.2)
  else r1

/-- One hardware invocation of the timer-0 interrupt: the pending MR1 / MR0
match flags and the two timer-counter reads. -/
structure IrqIn where
  ir1 : Bool
  ir0 : Bool
  tc : Nat
  tc2 : Nat

/-- A run of the step ticker: successive invocations of `TIMER0_IRQHandler`,
with the pin events concatenated in order. -/
def StepTicker.run (s : TState) : List IrqIn → TState × List PinEv
  | [] => (s, [])
  | e :: rest =>
    let r := StepTicker.TIMER0_IRQHandler s e.ir1 e.ir0 e.tc e.tc2
    let r2 := StepTicker.run r.1 rest
    (r2.1, r.2 ++ r2.2)

/-- Hardware constraint on a run: whenever the handler leaves the `MCR`
MR1-interrupt bit set, the MR1 match (programmed `reset_delay < period` ahead)
fires no later than the next serviced interrupt, so the next invocation has the
MR1 flag pending. -/
def StepTicker.valid_run (s : TState) : List IrqIn → Bool
  | [] => true
  | e :: rest =>
    (!s.mr1i || e.ir1) &&
      StepTicker.valid_run (StepTicker.TIMER0_IRQHandler s e.ir1 e.ir0 e.tc e.tc2).1 rest

/-- Motor `j` is in the active set at the entry of every invocation of the
run. -/
def StepTicker.active_throughout (j : Fin 12) (s : TState) : List IrqIn → Bool
  | [] => true
  | e :: rest =>
    s.active_motor_bm.testBit j.1 &&
      StepTicker.active_throughout j (StepTicker.TIMER0_IRQHandler s e.ir1 e.ir0 e.tc e.tc2).1 rest

/-- Scan of an event trace for motor `j` starting from pulse state `armed`
(`armed = true` means an `assert j` has happened with no `unstep j` yet): the
scan succeeds iff no `assert j` occurs while one is already outstanding —
i.e. between any two step-pin assertions of motor `j` there is an intervening
unstep of that pin. -/
def StepTicker.sep_from (j : Fin 12) : Bool → List PinEv → Bool
  | _, [] => true
  | armed, PinEv.assert i :: t =>
    if i = j then !armed && StepTicker.sep_from j true t else StepTicker.sep_from j armed t
  | armed, PinEv.unstep i :: t =>
    StepTicker.sep_from j (if i = j then false else armed) t

/-- The pulse state of motor `j` after scanning a trace. -/
def StepTicker.armed_after (j : Fin 12) : Bool → List PinEv → Bool
  | a, [] => a
  | a, PinEv.assert i :: t => StepTicker.armed_after j (if i = j then true else a) t
  | a, PinEv.unstep i :: t => StepTicker.armed_after j (if i = j then false else a) t

/-- Timer actions performed by the active-list operations: `arm` is the
source-line 257–259 sequence (clear `MCR` MR1R and MR1S, then `TCR`
enable+reset, then enable), `disarm` is source line 279 (set MR1R and MR1S so
the timer resets and stops at the next `reset_tick`). -/
inductive TimerAct
  | arm
  | disarm
deriving DecidableEq

/-- The slot whose registered motor is pointer-equal to `motor`: the first
match of the 12-slot search loops of the active-list operations. -/
def StepTicker.find_slot (s : TState) (motor : Nat) : Option (Fin 12) :=
  (List.finRange 12).find? fun i => decide (s.slot_id i = some motor)

/-- `StepTicker::add_motor_to_active_list` (source lines 244–266): remember
whether the active set was empty, search the first 12 slots for the motor, set
its bit, and on the empty-to-nonempty transition arm the timer (clear the MR1
reset/stop bits, reset and enable the timer).  An unregistered motor is a
no-op. -/
def StepTicker.add_motor_to_active_list (s : TState) (motor : Nat) :
    TState × List TimerAct :=
  let reinit := decide (s.active_motor_bm = 0)
  match StepTicker.find_slot s motor with
  | some i =>
    if reinit then
      ({ s with
          active_motor_bm := s.active_motor_bm ||| 2 ^ i.1
          mr1r := false
          mr1s := false
          tcr_enabled := true }, [TimerAct.arm])
    else
      ({ s with active_motor_bm := s.active_motor_bm ||| 2 ^ i.1 }, [])
  | none => (s, [])

/-- `StepTicker::remove_motor_from_active_list` (source lines 269–283): search
the first 12 slots for the motor, clear its bit, and when no active motor
remains enable the MR1 reset-and-stop bits.  An unregistered motor is a
no-op. -/
def StepTicker.remove_motor_from_active_list (s : TState) (motor : Nat) :
    TState × List TimerAct :=
  match StepTicker.find_slot s motor with
  | some i =>
    (StepTicker.remove_slot s i,
     if s.active_motor_bm &&& (2 ^ 32 - 1 - 2 ^ i.1) = 0 then [TimerAct.disarm] else [])
  | none => (s, [])

/-- A call to one of the two active-list operations. -/
inductive MOp
  | add (motor : Nat)
  | remove (motor : Nat)

/-- The motor argument of an active-list call. -/
def MOp.motor : MOp → Nat
  | .add m => m
  | .remove m => m

/-- Execute one active-list call. -/
def StepTicker.step_op (s : TState) : MOp → TState × List TimerAct
  | .add m => StepTicker.add_motor_to_active_list s m
  | .remove m => StepTicker.remove_motor_from_active_list s m

/-- Execute a sequence of active-list calls. -/
def StepTicker.run_ops (s : TState) : List MOp → TState
  | [] => s
  | op :: rest => StepTicker.run_ops (StepTicker.step_op s op).1 rest

/-- The step timer is armed: enabled, and not set to stop itself at the next
MR1 match. -/
def TState.armed (s : TState) : Prop := s.tcr_enabled = true ∧ s.mr1s = false

/-- Per-call timer-action discipline of a sequence of active-list calls: each
call performs the arm sequence iff it takes `active_motor_bm` from zero to
non-zero, and enables MR1 reset-and-stop iff it found the motor and left
`active_motor_bm` zero. -/
def StepTicker.ops_ok (s : TState) : List MOp → Prop
  | [] => True
  | op :: rest =>
    (TimerAct.arm ∈ (StepTicker.step_op s op).2 ↔
        (s.active_motor_bm = 0 ∧ (StepTicker.step_op s op).1.active_motor_bm ≠ 0)) ∧
    (TimerAct.disarm ∈ (StepTicker.step_op s op).2 ↔
        ((StepTicker.step_op s op).1.active_motor_bm = 0 ∧
          StepTicker.find_slot s (MOp.motor op) ≠ none)) ∧
    StepTicker.ops_ok (StepTicker.step_op s op).1 rest

/-- The state left by `StepTicker::StepTicker` (source lines 50–69): MR0
interrupt and reset configured, MR1 bits clear, timer disabled, no motor
active, flags clear.  `g` records the motors registered into the 12 slots by
`add_stepper_motor`, and `p` the period derived by `set_frequency` (the
`SystemCoreClock` constant is outside this snapshot). -/
def StepTicker.initial (g : Fin 12 → Option Nat) (p : Nat) : TState :=
  { motors := fun _ => {}
    slot_id := g
    active_motor_bm := 0
    reset_step_pins := false
    moves_finished := false
    period := p
    last_duration := 0
    mr0 := p
    mr1i := false
    mr1r := false
    mr1s := false
    tcr_enabled := false }

/-- A planner block, as consumed by `Stepper.cpp` (spec §3): per-axis step
counts for the three cartesian actuators, direction bits, the dominant-axis
count `steps_event_count`, the trapezoid rates (floats in the source, exact
rationals here), the phase boundaries, and the geometric length. -/
structure Blk where
  steps : Fin 3 → Nat
  direction_bits : Nat
  steps_event_count : Nat
  initial_rate : ℚ
  nominal_rate : ℚ
  final_rate : ℚ
  rate_delta : ℚ
  accelerate_until : Nat
  decelerate_after : Nat
  millimeters : ℚ

/-- A dummy block standing for dereferencing `current_block`; it is only read
under the guard `current_block ≠ none`. -/
def Blk.dflt : Blk :=
  { steps := fun _ => 0
    direction_bits := 0
    steps_event_count := 0
    initial_rate := 0
    nominal_rate := 0
    final_rate := 0
    rate_delta := 0
    accelerate_until := 0
    decelerate_after := 0
    millimeters := 0 }

/-- `Stepper` module state (`Stepper.cpp`).  `acts` are the three actuators of
`THEKERNEL->robot->actuators` (`ALPHA`, `BETA`, `GAMMA`); `main_stepper` is a
pointer into that array, modelled as an index. -/
structure SState where
  acts : Fin 3 → SM
  current_block : Option Blk
  main_stepper : Option (Fin 3)
  trapezoid_adjusted_rate : ℚ
  force_speed_update : Bool
  enable_pins_status : Bool
  paused : Bool
  minimum_steps_per_second : ℚ

/-- Observable actions of the Stepper module, in program order: `take` /
`release` are the block reference-count calls, `enable_pins` is
`turn_enable_pins_on`, `move` / `set_speed` are the motor commands,
`speed_change` is the `ON_SPEED_CHANGE` broadcast, and `sync_accel` is the
acceleration-timer resynchronisation of `synchronize_acceleration` (a pure
hardware-timer effect). -/
inductive SEv
  | take
  | enable_pins
  | move (i : Fin 3) (dir : Bool) (steps : Nat)
  | set_speed (i : Fin 3) (v : ℚ)
  | speed_change
  | release
  | sync_accel
deriving DecidableEq

/-- `Stepper::set_step_events_per_second` (source lines 276–290): clamp the
rate below by `minimum_steps_per_second`, command `set_speed` with the clamped
rate scaled by `rate_ratio` on every moving actuator, then broadcast
`ON_SPEED_CHANGE`. -/
def Stepper.set_step_events_per_second (s : SState) (steps_per_second : ℚ) :
    SState × List SEv :=
  let r := if steps_per_second < s.minimum_steps_per_second then s.minimum_steps_per_second
           else steps_per_second
  ({ s with acts := fun i =>
      if (s.acts i).moving then SM.set_speed (s.acts i) (r * (s.acts i).rate_scale)
      else s.acts i },
   ((List.finRange 3).flatMap fun i =>
      if (s.acts i).moving then [SEv.set_speed i (r * (s.acts i).rate_scale)] else []) ++
     [SEv.speed_change])

/-- `Stepper::trapezoid_generator_tick` (source lines 196–263), with the
conveyor `flush` flag and the ticker's `active_motor_bm` as inputs.  Guarded by
`current_block ∧ ¬paused ∧ active_motor_bm ≠ 0`; then one of: consume the
pending `force_speed_update`; the flush ramp-down (decrement above
`rate_delta * 1.5`, release the block at exactly `rate_delta * 0.5` after
commanding zero-step moves, else pin to `rate_delta * 0.5`); the acceleration
branch (`stepped ≤ accelerate_until + 1`); the deceleration branch
(`stepped > decelerate_after`); or the cruise correction.  Every path except
the flush release ends in `set_step_events_per_second`. -/
def Stepper.trapezoid_generator_tick (s : SState) (flush : Bool) (bm : Nat) :
    SState × List SEv :=
  if s.current_block.isSome ∧ s.paused = false ∧ bm ≠ 0 then
    let b := s.current_block.getD Blk.dflt
    let cs := Option.elim s.main_stepper 0 fun m => (s.acts m).stepped
    if s.force_speed_update then
      Stepper.set_step_events_per_second { s with force_speed_update := false }
        s.trapezoid_adjusted_rate
    else if flush then
      if b.rate_delta * (3 / 2) < s.trapezoid_adjusted_rate then
        Stepper.set_step_events_per_second
          { s with trapezoid_adjusted_rate := s.trapezoid_adjusted_rate - b.rate_delta }
          (s.trapezoid_adjusted_rate - b.rate_delta)
      else if s.trapezoid_adjusted_rate = b.rate_delta * (1 / 2) then
        ({ s with acts := fun i => SM.move (s.acts i) (s.acts i).direction 0 },
         ((List.finRange 3).map fun i => SEv.move i (s.acts i).direction 0) ++ [SEv.release])
      else
        Stepper.set_step_events_per_second
          { s with trapezoid_adjusted_rate := b.rate_delta * (1 / 2) }
          (b.rate_delta * (1 / 2))
    else if cs ≤ b.accelerate_until + 1 then
      let r := if b.nominal_rate < s.trapezoid_adjusted_rate + b.rate_delta then b.nominal_rate
               else s.trapezoid_adjusted_rate + b.rate_delta
      Stepper.set_step_events_per_second { s with trapezoid_adjusted_rate := r } r
    else if b.decelerate_after < cs then
      let r0 := if b.rate_delta * (3 / 2) < s.trapezoid_adjusted_rate then
                  s.trapezoid_adjusted_rate - b.rate_delta
                else b.rate_delta * (1 / 2)
      let r := if r0 < b.final_rate then b.final_rate else r0
      Stepper.set_step_events_per_second { s with trapezoid_adjusted_rate := r } r
    else if s.trapezoid_adjusted_rate ≠ b.nominal_rate then
      Stepper.set_step_events_per_second { s with trapezoid_adjusted_rate := b.nominal_rate }
        b.nominal_rate
    else
      Stepper.set_step_events_per_second s s.trapezoid_adjusted_rate
  else (s, [])

/-- `Stepper::on_block_begin` (source lines 122–169).  Blocks with zero length
or no XYZ steps pass through untouched; otherwise the block is taken, drivers
are enabled if off, the trapezoid is reset (`trapezoid_generator_reset`,
source lines 269–273), `main_stepper` is chosen as the first actuator with the
largest `steps_to_move` — scanned before the `move()` calls below update those
fields — each axis with steps is commanded to move and given its
`rate_ratio`, the initial rate is pushed through `trapezoid_generator_tick`,
and the acceleration timer is resynchronised. -/
def Stepper.on_block_begin (s : SState) (b : Blk) (flush : Bool) (bm : Nat) :
    SState × List SEv :=
  if b.millimeters = 0 then (s, [])
  else if 0 < b.steps 0 ∨ 0 < b.steps 1 ∨ 0 < b.steps 2 then
    let s1 := if s.enable_pins_status = false then
        { s with
          acts := fun i => { s.acts i with enabled := true }
          enable_pins_status := true }
      else s
    let e1 : List SEv := if s.enable_pins_status = false then [SEv.enable_pins] else []
    let s2 := { s1 with
      current_block := some b
      trapezoid_adjusted_rate := b.initial_rate
      force_speed_update := true }
    let ms := (List.finRange 3).foldl (fun best i =>
        match best with
        | none => some i
        | some k => if (s2.acts k).steps_to_move < (s2.acts i).steps_to_move then some i
                    else best) none
    let s3 := { s2 with main_stepper := ms }
    let moved : Fin 3 → SM := fun i =>
      if 0 < b.steps i then
        { SM.move (s3.acts i) (b.direction_bits.testBit i.1) (b.steps i) with
          rate_scale := (b.steps i : ℚ) / (b.steps_event_count : ℚ) }
      else s3.acts i
    let s4 := { s3 with acts := moved }
    let e2 := (List.finRange 3).flatMap fun i =>
        if 0 < b.steps i then [SEv.move i (b.direction_bits.testBit i.1) (b.steps i)] else []
    let r := Stepper.trapezoid_generator_tick s4 flush bm
    (r.1, SEv.take :: e1 ++ e2 ++ r.2 ++ [SEv.sync_accel])
  else (s, [])

/-!  Claim-following definition used to compare the claim's wording against the
code (claim C5). -/

/-- The deceleration update exactly as claim C5 words it: decrease the rate by
`rate_delta` unless the result would go ≤ 0, in which case pin to
`rate_delta * 0.5`; afterwards clamp from below to `final_rate`.  This follows
the claim's words, not the code, and is compared against the code's
behaviour. -/
def Stepper.c5_claim_rate (rate rd final : ℚ) : ℚ :=
  let d := if rate - rd ≤ 0 then rd * (1 / 2) else rate - rd
  if d < final then final else d

/-!  Concrete inputs used by the counterexamples and witnesses below. -/

/-- An actuator left with 100 target steps by a previous block. -/
def prevA : SM := { steps_to_move := 100 }

/-- Stepper state before a block begins: actuator 0 still holds the previous
block's `steps_to_move = 100`, drivers enabled, not paused. -/
def c3s : SState :=
  { acts := fun i => if i = 0 then prevA else {}
    current_block := none
    main_stepper := none
    trapezoid_adjusted_rate := 0
    force_speed_update := false
    enable_pins_status := true
    paused := false
    minimum_steps_per_second := 0 }

/-- A block commanding 1 step on axis 0 and 500 steps on axis 1. -/
def c3b : Blk :=
  { steps := fun i => if i = 1 then 500 else if i = 0 then 1 else 0
    direction_bits := 0
    steps_event_count := 500
    initial_rate := 10
    nominal_rate := 100
    final_rate := 10
    rate_delta := 1
    accelerate_until := 50
    decelerate_after := 450
    millimeters := 5 }

/-- A moving actuator with `stepped = 5` of 1000 steps. -/
def movA5 : SM := { stepped := 5, steps_to_move := 1000, moving := true }

/-- A moving actuator with `stepped = 20` of 1000 steps. -/
def movA20 : SM := { stepped := 20, steps_to_move := 1000, moving := true }

/-- Block for claim C5, scenario A: `accelerate_until = 10` and
`decelerate_after = 0`, so a tick at `stepped = 5` satisfies the claim's
deceleration conditions yet the code takes the acceleration branch. -/
def c5bA : Blk :=
  { steps := fun _ => 1000
    direction_bits := 0
    steps_event_count := 1000
    initial_rate := 10
    nominal_rate := 100
    final_rate := 0
    rate_delta := 2
    accelerate_until := 10
    decelerate_after := 0
    millimeters := 5 }

/-- Stepper state for claim C5, scenario A: rate 10, main stepper at step 5. -/
def c5sA : SState :=
  { acts := fun i => if i = 0 then movA5 else {}
    current_block := some c5bA
    main_stepper := some 0
    trapezoid_adjusted_rate := 10
    force_speed_update := false
    enable_pins_status := true
    paused := false
    minimum_steps_per_second := 0 }

/-- Block for claim C5, scenario B: deceleration at `stepped = 20` with
`rate_delta = 2`, where the code pins to `1` although the claimed decrement
result `1/2` is positive. -/
def c5bB : Blk :=
  { steps := fun _ => 1000
    direction_bits := 0
    steps_event_count := 1000
    initial_rate := 10
    nominal_rate := 100
    final_rate := 0
    rate_delta := 2
    accelerate_until := 0
    decelerate_after := 10
    millimeters := 5 }

/-- Stepper state for claim C5, scenario B: rate `5/2`, main stepper at
step 20. -/
def c5sB : SState :=
  { acts := fun i => if i = 0 then movA20 else {}
    current_block := some c5bB
    main_stepper := some 0
    trapezoid_adjusted_rate := 5 / 2
    force_speed_update := false
    enable_pins_status := true
    paused := false
    minimum_steps_per_second := 0 }

/-- Block for the claim C4 witness: flush ramp with `rate_delta = 2`. -/
def c4b : Blk := { c5bB with accelerate_until := 50, decelerate_after := 900 }

/-- Stepper state for the claim C4 witness: rate 10, flush about to start. -/
def c4s : SState := { c5sB with current_block := some c4b, trapezoid_adjusted_rate := 10 }

/-- Stepper state for the claim C4 witness, at the flush floor `rate_delta/2`. -/
def c4sf : SState := { c4s with trapezoid_adjusted_rate := 1 }

/-- Block for the claim C6 witness: acceleration up to step 50. -/
def c6b : Blk := { c5bB with accelerate_until := 50, decelerate_after := 900 }

/-- Stepper state for the claim C6 witness: accelerating at rate 10, step 5. -/
def c6s : SState := { c5sA with current_block := some c6b }

/-- Zero-length block for the claim C7 witness. -/
def c7b : Blk := { Blk.dflt with millimeters := 0 }

/-- Stepper state for the claim C7 witness. -/
def c7s : SState := c3s

/-- Stepper state for the claim C8 witness: actuator 0 moving with rate scale
`3/4`, actuator 1 idle, minimum rate 50. -/
def c8s : SState :=
  { c3s with
    acts := fun i => if i = 0 then { moving := true, rate_scale := 3 / 4 } else {}
    minimum_steps_per_second := 50 }

/-- Slot assignment for the ticker witnesses: motors 7, 8, 9 registered in the
first three slots. -/
def c9g : Fin 12 → Option Nat := fun i => if i.1 < 3 then some (7 + i.1) else none

/-- Ticker state for the claim C1 witness: motors 0 and 1 active; motor 0 is
`2 ^ 32 + 5` into a `5 <<< 32` tick period, motor 1 at the start of a
`10 <<< 32` one; period 100 timer ticks, 10 spent in the previous overrun. -/
def c1s : TState :=
  { StepTicker.initial c9g 100 with
    active_motor_bm := 3
    motors := fun i =>
      if i = 0 then { fx_ticks_per_step := 5 * 2 ^ 32, fx_counter := 2 ^ 32 + 5 }
      else if i = 1 then { fx_ticks_per_step := 10 * 2 ^ 32, fx_counter := 0 }
      else {}
    last_duration := 10 }

/-- Ticker state for the claim C2 witness: motor 0 active and pulsing every
tick (`fx_ticks_per_step = 1 <<< 32`), 100 steps to go. -/
def c2s : TState :=
  { StepTicker.initial c9g 100 with
    active_motor_bm := 1
    motors := fun i =>
      if i = 0 then { fx_ticks_per_step := 2 ^ 32, fx_counter := 0, steps_to_move := 100, moving := true }
      else {} }

/-- Interrupt sequence for the claim C2 witness: an MR0-only invocation (which
asserts motor 0's pin and enables the MR1 interrupt) followed by an invocation
with both MR1 and MR0 pending. -/
def c2irs : List IrqIn := [⟨false, true, 0, 0⟩, ⟨true, true, 0, 0⟩]

/-- Ticker state for the claim C10 witness. -/
def c10s : TState := StepTicker.initial c9g 1000

/-!  Small facts about `set_step_events_per_second` and the trapezoid tick. -/

theorem sseps_rate (s : SState) (r : ℚ) :
    (Stepper.set_step_events_per_second s r).1.trapezoid_adjusted_rate =
      s.trapezoid_adjusted_rate := rfl

theorem sseps_main_stepper (s : SState) (r : ℚ) :
    (Stepper.set_step_events_per_second s r).1.main_stepper = s.main_stepper := rfl

theorem sseps_no_release (s : SState) (r : ℚ) :
    SEv.release ∉ (Stepper.set_step_events_per_second s r).2 := by
  simp only [Stepper.set_step_events_per_second, List.mem_append, List.mem_flatMap]
  rintro (⟨i, _, hi⟩ | h)
  · revert hi
    split <;> simp
  · simp at h

/-- The trapezoid tick never changes `main_stepper`. -/
theorem tick_main_stepper (s : SState) (flush : Bool) (bm : Nat) :
    (Stepper.trapezoid_generator_tick s flush bm).1.main_stepper = s.main_stepper := by
  simp only [Stepper.trapezoid_generator_tick]
  split_ifs <;> rfl

/-- Claim C7: a block with `millimeters = 0` or with all three XYZ step counts
zero passes through `on_block_begin` untouched: no `take`, no driver enable, no
motor command, no event at all, and the whole Stepper state — in particular
`current_block`, `main_stepper` and `trapezoid_adjusted_rate` — is
unchanged. -/
theorem claim_c7 (s : SState) (b : Blk) (flush : Bool) (bm : Nat)
    (h : b.millimeters = 0 ∨ ∀ i : Fin 3, b.steps i = 0) :
    Stepper.on_block_begin s b flush bm = (s, []) := by
  rcases h with h | h
  · simp [Stepper.on_block_begin, h]
  · have h0 := h 0
    have h1 := h 1
    have h2 := h 2
    by_cases hm : b.millimeters = 0 <;>
      simp [Stepper.on_block_begin, hm, h0, h1, h2]

/-- Witness for claim C7 at a concrete zero-length block. -/
theorem claim_c7_witness :
    (c7b.millimeters = 0 ∨ ∀ i : Fin 3, c7b.steps i = 0) ∧
      Stepper.on_block_begin c7s c7b false 0 = (c7s, []) :=
  ⟨Or.inl rfl, claim_c7 c7s c7b false 0 (Or.inl rfl)⟩

/-- Claim C10: calling `add_motor_to_active_list` or
`remove_motor_from_active_list` with a motor that is not registered in any of
the first 12 slots leaves the whole ticker state — `active_motor_bm` and the
timer configuration included — unchanged, with no timer action performed. -/
theorem claim_c10 (s : TState) (m : Nat) (h : ∀ i : Fin 12, s.slot_id i ≠ some m) :
    StepTicker.add_motor_to_active_list s m = (s, []) ∧
      StepTicker.remove_motor_from_active_list s m = (s, []) := by
  have hf : StepTicker.find_slot s m = none := by
    apply List.find?_eq_none.mpr
    intro i _
    simp [h i]
  constructor <;>
    simp [StepTicker.add_motor_to_active_list, StepTicker.remove_motor_from_active_list, hf]

/-- Witness for claim C10: motor 99 is not registered in `c10s`. -/
theorem claim_c10_witness :
    StepTicker.add_motor_to_active_list c10s 99 = (c10s, []) ∧
      StepTicker.remove_motor_from_active_list c10s 99 = (c10s, []) :=
  claim_c10 c10s 99 (by decide)

/-- Claim C8: `set_step_events_per_second r` applies exactly
`max r minimum_steps_per_second`; every actuator with `moving = true` receives
`set_speed` of the applied rate scaled by its `rate_ratio` (and only those
values are commanded), while actuators with `moving = false` are left
completely unchanged. -/
theorem claim_c8 (s : SState) (r : ℚ) :
    (if r < s.minimum_steps_per_second then s.minimum_steps_per_second else r) =
        max r s.minimum_steps_per_second ∧
    (∀ i : Fin 3, (s.acts i).moving = true →
      (Stepper.set_step_events_per_second s r).1.acts i =
        SM.set_speed (s.acts i) (max r s.minimum_steps_per_second * (s.acts i).rate_scale)) ∧
    (∀ i : Fin 3, (s.acts i).moving = false →
      (Stepper.set_step_events_per_second s r).1.acts i = s.acts i) ∧
    (∀ (i : Fin 3) (v : ℚ),
      SEv.set_speed i v ∈ (Stepper.set_step_events_per_second s r).2 ↔
        ((s.acts i).moving = true ∧ v = max r s.minimum_steps_per_second * (s.acts i).rate_scale)) := by
  have hmax : (if r < s.minimum_steps_per_second then s.minimum_steps_per_second else r) =
      max r s.minimum_steps_per_second := by
    rcases lt_or_ge r s.minimum_steps_per_second with h | h
    · rw [if_pos h, max_eq_right (le_of_lt h)]
    · rw [if_neg (not_lt.mpr h), max_eq_left h]
  refine ⟨hmax, ?_, ?_, ?_⟩
  · intro i hi
    simp [Stepper.set_step_events_per_second, hi, hmax]
  · intro i hi
    simp [Stepper.set_step_events_per_second, hi]
  · intro i v
    simp only [Stepper.set_step_events_per_second, hmax, List.mem_append, List.mem_flatMap,
      List.mem_finRange, true_and]
    constructor
    · rintro (⟨k, hk⟩ | h)
      · revert hk
        by_cases hm : (s.acts k).moving = true <;> simp [hm]
        rintro rfl h2
        exact ⟨hm, h2⟩
      · simp at h
    · rintro ⟨hm, rfl⟩
      exact Or.inl ⟨i, by simp [hm]⟩

/-- Witness for claim C8 on `c8s` (one moving actuator, one idle) with a rate
below the 50 steps-per-second floor. -/
theorem claim_c8_witness :
    (c8s.acts 0).moving = true ∧ (c8s.acts 1).moving = false ∧
      (Stepper.set_step_events_per_second c8s 20).1.acts 0 =
        SM.set_speed (c8s.acts 0) (max 20 c8s.minimum_steps_per_second * (c8s.acts 0).rate_scale) ∧
      (Stepper.set_step_events_per_second c8s 20).1.acts 1 = c8s.acts 1 :=
  ⟨by decide, by decide,
   (claim_c8 c8s 20).2.1 0 (by decide), (claim_c8 c8s 20).2.2.1 1 (by decide)⟩

/-- Branch equation: the trapezoid tick under the flush flag. -/
theorem tick_flush_eq (s : SState) (b : Blk) (bm : Nat)
    (hb : s.current_block = some b) (hp : s.paused = false) (hbm : bm ≠ 0)
    (hf : s.force_speed_update = false) :
    Stepper.trapezoid_generator_tick s true bm =
      (if b.rate_delta * (3 / 2) < s.trapezoid_adjusted_rate then
        Stepper.set_step_events_per_second
          { s with trapezoid_adjusted_rate := s.trapezoid_adjusted_rate - b.rate_delta }
          (s.trapezoid_adjusted_rate - b.rate_delta)
      else if s.trapezoid_adjusted_rate = b.rate_delta * (1 / 2) then
        ({ s with acts := fun i => SM.move (s.acts i) (s.acts i).direction 0 },
         ((List.finRange 3).map fun i => SEv.move i (s.acts i).direction 0) ++ [SEv.release])
      else
        Stepper.set_step_events_per_second
          { s with trapezoid_adjusted_rate := b.rate_delta * (1 / 2) }
          (b.rate_delta * (1 / 2))) := by
  simp only [Stepper.trapezoid_generator_tick, hb, hp, hf, hbm, Option.isSome_some,
    Option.getD_some]
  rw [if_pos (⟨trivial, trivial, hbm⟩ : True ∧ True ∧ bm ≠ 0),
    if_neg (by simp : ¬ false = true), if_pos trivial]

/-- Branch equation: the trapezoid tick in the acceleration branch. -/
theorem tick_accel_eq (s : SState) (b : Blk) (bm : Nat) (m : Fin 3)
    (hb : s.current_block = some b) (hp : s.paused = false) (hbm : bm ≠ 0)
    (hf : s.force_speed_update = false) (hms : s.main_stepper = some m)
    (hacc : (s.acts m).stepped ≤ b.accelerate_until + 1) :
    Stepper.trapezoid_generator_tick s false bm =
      Stepper.set_step_events_per_second
        { s with trapezoid_adjusted_rate :=
            if b.nominal_rate < s.trapezoid_adjusted_rate + b.rate_delta then b.nominal_rate
            else s.trapezoid_adjusted_rate + b.rate_delta }
        (if b.nominal_rate < s.trapezoid_adjusted_rate + b.rate_delta then b.nominal_rate
         else s.trapezoid_adjusted_rate + b.rate_delta) := by
  simp only [Stepper.trapezoid_generator_tick, hb, hp, hf, hms, Option.isSome_some,
    Option.getD_some, Option.elim]
  rw [if_pos (⟨trivial, trivial, hbm⟩ : True ∧ True ∧ bm ≠ 0),
    if_neg (by simp : ¬ false = true), if_neg (by simp : ¬ false = true), if_pos hacc]

/-- Branch equation: the trapezoid tick in the deceleration branch. -/
theorem tick_decel_eq (s : SState) (b : Blk) (bm : Nat) (m : Fin 3)
    (hb : s.current_block = some b) (hp : s.paused = false) (hbm : bm ≠ 0)
    (hf : s.force_speed_update = false) (hms : s.main_stepper = some m)
    (hacc : ¬ (s.acts m).stepped ≤ b.accelerate_until + 1)
    (hdec : b.decelerate_after < (s.acts m).stepped) :
    Stepper.trapezoid_generator_tick s false bm =
      Stepper.set_step_events_per_second
        { s with trapezoid_adjusted_rate :=
            if (if b.rate_delta * (3 / 2) < s.trapezoid_adjusted_rate then
                  s.trapezoid_adjusted_rate - b.rate_delta
                else b.rate_delta * (1 / 2)) < b.final_rate then b.final_rate
            else if b.rate_delta * (3 / 2) < s.trapezoid_adjusted_rate then
                  s.trapezoid_adjusted_rate - b.rate_delta
                else b.rate_delta * (1 / 2) }
        (if (if b.rate_delta * (3 / 2) < s.trapezoid_adjusted_rate then
              s.trapezoid_adjusted_rate - b.rate_delta
            else b.rate_delta * (1 / 2)) < b.final_rate then b.final_rate
         else if b.rate_delta * (3 / 2) < s.trapezoid_adjusted_rate then
              s.trapezoid_adjusted_rate - b.rate_delta
            else b.rate_delta * (1 / 2)) := by
  simp only [Stepper.trapezoid_generator_tick, hb, hp, hf, hms, Option.isSome_some,
    Option.getD_some, Option.elim]
  rw [if_pos (⟨trivial, trivial, hbm⟩ : True ∧ True ∧ bm ≠ 0),
    if_neg (by simp : ¬ false = true), if_neg (by simp : ¬ false = true), if_neg hacc,
    if_pos hdec]

/-- Claim C4: with a block executing (`current_block` set, not paused, active
motors present) and no `force_speed_update` pending, a trapezoid tick under the
conveyor flush flag behaves as a forced ramp-down: a tick with the rate above
`rate_delta * 1.5` decreases it by exactly `rate_delta` and does not release
the block; a tick with the rate at or below `rate_delta * 1.5` but not at the
floor pins it to exactly `rate_delta * 0.5` and does not release; and the tick
at which the rate sits exactly at the floor `rate_delta * 0.5` commands
`move(direction, 0)` on every actuator and releases the current block
(`0 ≤ rate_delta` makes the three cases exclusive, as in any planner
block). -/
theorem claim_c4 (s : SState) (b : Blk) (bm : Nat)
    (hb : s.current_block = some b) (hp : s.paused = false) (hbm : bm ≠ 0)
    (hf : s.force_speed_update = false) (hd : 0 ≤ b.rate_delta) :
    (b.rate_delta * (3 / 2) < s.trapezoid_adjusted_rate →
      (Stepper.trapezoid_generator_tick s true bm).1.trapezoid_adjusted_rate =
          s.trapezoid_adjusted_rate - b.rate_delta ∧
        SEv.release ∉ (Stepper.trapezoid_generator_tick s true bm).2) ∧
    (s.trapezoid_adjusted_rate ≤ b.rate_delta * (3 / 2) →
      s.trapezoid_adjusted_rate ≠ b.rate_delta * (1 / 2) →
      (Stepper.trapezoid_generator_tick s true bm).1.trapezoid_adjusted_rate =
          b.rate_delta * (1 / 2) ∧
        SEv.release ∉ (Stepper.trapezoid_generator_tick s true bm).2) ∧
    (s.trapezoid_adjusted_rate = b.rate_delta * (1 / 2) →
      (∀ i : Fin 3,
        (Stepper.trapezoid_generator_tick s true bm).1.acts i =
          SM.move (s.acts i) (s.acts i).direction 0 ∧
        SEv.move i (s.acts i).direction 0 ∈ (Stepper.trapezoid_generator_tick s true bm).2) ∧
      SEv.release ∈ (Stepper.trapezoid_generator_tick s true bm).2) := by
  refine ⟨?_, ?_, ?_⟩
  · intro h1
    rw [tick_flush_eq s b bm hb hp hbm hf, if_pos h1]
    exact ⟨sseps_rate _ _, sseps_no_release _ _⟩
  · intro h1 h2
    rw [tick_flush_eq s b bm hb hp hbm hf, if_neg (not_lt.mpr h1), if_neg h2]
    exact ⟨sseps_rate _ _, sseps_no_release _ _⟩
  · intro h1
    have hlt : ¬ b.rate_delta * (3 / 2) < s.trapezoid_adjusted_rate := by
      rw [h1]
      intro hcon
      linarith
    rw [tick_flush_eq s b bm hb hp hbm hf, if_neg hlt, if_pos h1]
    refine ⟨fun i => ⟨rfl, ?_⟩, ?_⟩
    · exact List.mem_append_left _ (List.mem_map.mpr ⟨i, List.mem_finRange i, rfl⟩)
    · exact List.mem_append_right _ (List.mem_singleton_self _)

/-- Claim C6: with a block executing, no pending `force_speed_update` and no
flush, a trapezoid tick in the acceleration phase
(`main_stepper.stepped ≤ accelerate_until + 1`) increases the rate by exactly
`rate_delta` and then clamps it to `nominal_rate`, so after the tick the rate
never exceeds `nominal_rate`. -/
theorem claim_c6 (s : SState) (b : Blk) (bm : Nat) (m : Fin 3)
    (hb : s.current_block = some b) (hp : s.paused = false) (hbm : bm ≠ 0)
    (hf : s.force_speed_update = false) (hms : s.main_stepper = some m)
    (hacc : (s.acts m).stepped ≤ b.accelerate_until + 1) :
    (Stepper.trapezoid_generator_tick s false bm).1.trapezoid_adjusted_rate =
      (if b.nominal_rate < s.trapezoid_adjusted_rate + b.rate_delta then b.nominal_rate
       else s.trapezoid_adjusted_rate + b.rate_delta) ∧
    (Stepper.trapezoid_generator_tick s false bm).1.trapezoid_adjusted_rate ≤
      b.nominal_rate := by
  have hr : (Stepper.trapezoid_generator_tick s false bm).1.trapezoid_adjusted_rate =
      (if b.nominal_rate < s.trapezoid_adjusted_rate + b.rate_delta then b.nominal_rate
       else s.trapezoid_adjusted_rate + b.rate_delta) := by
    rw [tick_accel_eq s b bm m hb hp hbm hf hms hacc]
    exact sseps_rate _ _
  refine ⟨hr, ?_⟩
  rw [hr]
  split_ifs with h
  · exact le_refl _
  · exact le_of_not_lt h

/-- Claim C5 as amended by the counterexample: for a trapezoid tick taken in
the deceleration branch — block executing, not paused, active motors, no
`force_speed_update`, no flush, `stepped > accelerate_until + 1` (the
acceleration branch, which the code tries first, is not taken) and
`stepped > decelerate_after` — the rate decreases by `rate_delta` when it is
above `rate_delta * 1.5`, and otherwise — i.e. whenever the decrement would
leave it at or below `rate_delta * 0.5`, not only when the result would go
≤ 0 — it is pinned to `rate_delta * 0.5`; afterwards it is clamped from below
to `final_rate`. -/
theorem claim_c5_amended (s : SState) (b : Blk) (bm : Nat) (m : Fin 3)
    (hb : s.current_block = some b) (hp : s.paused = false) (hbm : bm ≠ 0)
    (hf : s.force_speed_update = false) (hms : s.main_stepper = some m)
    (hacc : ¬ (s.acts m).stepped ≤ b.accelerate_until + 1)
    (hdec : b.decelerate_after < (s.acts m).stepped) :
    (b.rate_delta * (3 / 2) < s.trapezoid_adjusted_rate →
      (Stepper.trapezoid_generator_tick s false bm).1.trapezoid_adjusted_rate =
        max b.final_rate (s.trapezoid_adjusted_rate - b.rate_delta)) ∧
    (s.trapezoid_adjusted_rate ≤ b.rate_delta * (3 / 2) →
      (Stepper.trapezoid_generator_tick s false bm).1.trapezoid_adjusted_rate =
        max b.final_rate (b.rate_delta * (1 / 2))) := by
  have hr : (Stepper.trapezoid_generator_tick s false bm).1.trapezoid_adjusted_rate =
      (if (if b.rate_delta * (3 / 2) < s.trapezoid_adjusted_rate then
            s.trapezoid_adjusted_rate - b.rate_delta
          else b.rate_delta * (1 / 2)) < b.final_rate then b.final_rate
       else if b.rate_delta * (3 / 2) < s.trapezoid_adjusted_rate then
            s.trapezoid_adjusted_rate - b.rate_delta
          else b.rate_delta * (1 / 2)) := by
    rw [tick_decel_eq s b bm m hb hp hbm hf hms hacc hdec]
    exact sseps_rate _ _
  constructor
  · intro h1
    rw [hr, if_pos h1]
    rcases lt_or_ge (s.trapezoid_adjusted_rate - b.rate_delta) b.final_rate with h | h
    · rw [if_pos h, max_eq_left (le_of_lt h)]
    · rw [if_neg (not_lt.mpr h), max_eq_right h]
  · intro h1
    rw [hr, if_neg (not_lt.mpr h1)]
    rcases lt_or_ge (b.rate_delta * (1 / 2)) b.final_rate with h | h
    · rw [if_pos h, max_eq_left (le_of_lt h)]
    · rw [if_neg (not_lt.mpr h), max_eq_right h]

/-- Counterexample to claim C5 as stated, at two explicit inputs, each of
which satisfies every precondition the claim states (block executing, not
paused, active motors, no `force_speed_update`, no flush, and
`stepped > decelerate_after`).  `c5_claim_rate` is the claim's own update
rule.  Scenario A (`c5sA`: `stepped = 5`, `accelerate_until = 10`,
`decelerate_after = 0`): the code takes the acceleration branch and raises the
rate from 10 to 12, while the claim demands `c5_claim_rate 10 2 0 = 8`.
Scenario B (`c5sB`: rate `5/2`, `rate_delta = 2`): the code pins the rate to
`1 = rate_delta * 0.5` because `5/2 ≤ rate_delta * 1.5`, although the claimed
decrement result `5/2 - 2 = 1/2` is positive, so the claim demands
`c5_claim_rate (5/2) 2 0 = 1/2`. -/
theorem claim_c5_counterexample :
    ((Stepper.trapezoid_generator_tick c5sA false 1).1.trapezoid_adjusted_rate = 12 ∧
      Stepper.c5_claim_rate 10 2 0 = 8 ∧ (12 : ℚ) ≠ 8) ∧
    ((Stepper.trapezoid_generator_tick c5sB false 1).1.trapezoid_adjusted_rate = 1 ∧
      Stepper.c5_claim_rate (5 / 2) 2 0 = 1 / 2 ∧ (1 : ℚ) ≠ 1 / 2) := by
  refine ⟨⟨?_, ?_, by norm_num⟩, ⟨?_, ?_, by norm_num⟩⟩
  · rw [tick_accel_eq c5sA c5bA 1 0 rfl rfl (by decide) rfl rfl (by decide), sseps_rate]
    norm_num [c5sA, c5bA]
  · norm_num [Stepper.c5_claim_rate]
  · rw [tick_decel_eq c5sB c5bB 1 0 rfl rfl (by decide) rfl rfl (by decide) (by decide),
      sseps_rate]
    norm_num [c5sB, c5bB]
  · norm_num [Stepper.c5_claim_rate]

/-- Witness for claim C5 (amended) at scenario B: the pin-to-`rate_delta/2`
case. -/
theorem claim_c5_witness :
    (Stepper.trapezoid_generator_tick c5sB false 1).1.trapezoid_adjusted_rate =
      max c5bB.final_rate (c5bB.rate_delta * (1 / 2)) :=
  (claim_c5_amended c5sB c5bB 1 0 rfl rfl (by decide) rfl rfl (by decide) (by decide)).2
    (by norm_num [c5sB, c5bB])

/-- Witness for claim C4: the decrement case (rate 10, `rate_delta` 2, at
`c4s`) and the release case (rate `1 = rate_delta * 0.5`, at `c4sf`). -/
theorem claim_c4_witness :
    ((Stepper.trapezoid_generator_tick c4s true 1).1.trapezoid_adjusted_rate =
        c4s.trapezoid_adjusted_rate - c4b.rate_delta ∧
      SEv.release ∉ (Stepper.trapezoid_generator_tick c4s true 1).2) ∧
    SEv.release ∈ (Stepper.trapezoid_generator_tick c4sf true 1).2 :=
  ⟨(claim_c4 c4s c4b 1 rfl rfl (by decide) rfl (by norm_num [c4b, c5bB])).1
      (by norm_num [c4s, c4b, c5sB, c5bB]),
   ((claim_c4 c4sf c4b 1 rfl rfl (by decide) rfl (by norm_num [c4b, c5bB])).2.2
      (by norm_num [c4sf, c4s, c4b, c5sB, c5bB])).2⟩

/-- Witness for claim C6 at a concrete accelerating state (rate 10, delta 2,
nominal 100). -/
theorem claim_c6_witness :
    (Stepper.trapezoid_generator_tick c6s false 1).1.trapezoid_adjusted_rate =
      (if c6b.nominal_rate < c6s.trapezoid_adjusted_rate + c6b.rate_delta then c6b.nominal_rate
       else c6s.trapezoid_adjusted_rate + c6b.rate_delta) ∧
    (Stepper.trapezoid_generator_tick c6s false 1).1.trapezoid_adjusted_rate ≤
      c6b.nominal_rate :=
  claim_c6 c6s c6b 1 0 rfl rfl (by decide) rfl rfl (by decide)

/-- The source's three-step argmax scan returns the first index attaining the
maximum. -/
theorem argmax3_spec (f : Fin 3 → Nat) :
    ∃ m : Fin 3,
      ((List.finRange 3).foldl (fun best i =>
          match best with
          | none => some i
          | some k => if f k < f i then some i else best) none) = some m ∧
      (∀ j : Fin 3, f j ≤ f m) ∧ (∀ j : Fin 3, j < m → f j < f m) := by
  have key : ∀ m : Fin 3, f 0 ≤ f m → f 1 ≤ f m → f 2 ≤ f m → ∀ j : Fin 3, f j ≤ f m := by
    intro m h0 h1 h2 j
    fin_cases j
    · exact h0
    · exact h1
    · exact h2
  have key2 : ∀ m : Fin 3, ((0 : Fin 3) < m → f 0 < f m) → ((1 : Fin 3) < m → f 1 < f m) →
      ∀ j : Fin 3, j < m → f j < f m := by
    intro m h0 h1 j hj
    fin_cases j
    · exact h0 hj
    · exact h1 hj
    · exfalso
      rw [Fin.lt_def] at hj
      have hm := m.isLt
      simp at hj
      omega
  have h3 : (List.finRange 3) = [0, 1, 2] := by decide
  rw [h3]
  simp only [List.foldl_cons, List.foldl_nil]
  by_cases h01 : f 0 < f 1
  · simp only [h01, if_true]
    by_cases h12 : f 1 < f 2
    · simp only [h12, if_true]
      exact ⟨2, rfl, key 2 (by omega) (by omega) (by omega),
        key2 2 (fun _ => by omega) (fun _ => by omega)⟩
    · simp only [h12, if_false]
      exact ⟨1, rfl, key 1 (by omega) (by omega) (by omega),
        key2 1 (fun _ => by omega) (fun hcon => absurd hcon (by decide))⟩
  · simp only [h01, if_false]
    by_cases h02 : f 0 < f 2
    · simp only [h02, if_true]
      exact ⟨2, rfl, key 2 (by omega) (by omega) (by omega),
        key2 2 (fun _ => by omega) (fun _ => by omega)⟩
    · simp only [h02, if_false]
      exact ⟨0, rfl, key 0 (by omega) (by omega) (by omega),
        key2 0 (fun hcon => absurd hcon (by decide)) (fun hcon => absurd hcon (by decide))⟩

/-- Under the guards, `on_block_begin` sets `main_stepper` to the argmax scan
of the pre-move `steps_to_move` values. -/
theorem obb_main_stepper (s : SState) (b : Blk) (flush : Bool) (bm : Nat)
    (hmm : b.millimeters ≠ 0) (hst : 0 < b.steps 0 ∨ 0 < b.steps 1 ∨ 0 < b.steps 2) :
    (Stepper.on_block_begin s b flush bm).1.main_stepper =
      (List.finRange 3).foldl (fun best i =>
        match best with
        | none => some i
        | some k =>
            if (s.acts k).steps_to_move < (s.acts i).steps_to_move then some i
            else best) none := by
  simp only [Stepper.on_block_begin]
  rw [if_neg hmm, if_pos hst]
  simp only [tick_main_stepper]
  by_cases hen : s.enable_pins_status = false
  · rw [if_pos hen]
  · rw [if_neg hen]

/-- Counterexample to claim C3 as stated: at `c3s` (actuator 0 left with
`steps_to_move = 100` by a previous block) and block `c3b` (1 step on axis 0,
500 on axis 1), `on_block_begin` picks `main_stepper = actuator 0` — the
argmax scan at source lines 146–149 runs before the `move()` calls update
`steps_to_move` — yet after the call actuator 1 holds strictly more commanded
steps for this block than actuator 0. -/
theorem claim_c3_counterexample :
    (Stepper.on_block_begin c3s c3b false 1).1.main_stepper = some 0 ∧
      ((Stepper.on_block_begin c3s c3b false 1).1.acts 0).steps_to_move <
        ((Stepper.on_block_begin c3s c3b false 1).1.acts 1).steps_to_move := by
  constructor
  · decide
  · decide

/-- Claim C3 as amended by the counterexample: after `on_block_begin`
processes a block with nonzero length and some nonzero XYZ step count,
`main_stepper` is the first actuator attaining the maximum of the
`steps_to_move` values as they stood before this block's `move()` commands
were issued (the values left over from previous moves) — not the argmax of the
step counts commanded for this block. -/
theorem claim_c3_amended (s : SState) (b : Blk) (flush : Bool) (bm : Nat)
    (hmm : b.millimeters ≠ 0) (hst : 0 < b.steps 0 ∨ 0 < b.steps 1 ∨ 0 < b.steps 2) :
    ∃ m : Fin 3,
      (Stepper.on_block_begin s b flush bm).1.main_stepper = some m ∧
      (∀ j : Fin 3, (s.acts j).steps_to_move ≤ (s.acts m).steps_to_move) ∧
      (∀ j : Fin 3, j < m → (s.acts j).steps_to_move < (s.acts m).steps_to_move) := by
  obtain ⟨m, hfold, hmax, hstrict⟩ := argmax3_spec fun i => (s.acts i).steps_to_move
  exact ⟨m, (obb_main_stepper s b flush bm hmm hst).trans hfold, hmax, hstrict⟩

/-- Witness for claim C3 (amended) at the concrete state `c3s` and block
`c3b`. -/
theorem claim_c3_witness :
    ∃ m : Fin 3,
      (Stepper.on_block_begin c3s c3b false 1).1.main_stepper = some m ∧
      (∀ j : Fin 3, (c3s.acts j).steps_to_move ≤ (c3s.acts m).steps_to_move) ∧
      (∀ j : Fin 3, j < m → (c3s.acts j).steps_to_move < (c3s.acts m).steps_to_move) :=
  claim_c3_amended c3s c3b false 1 (by norm_num [c3b]) (by decide)

theorem or_two_pow_ne_zero (a i : Nat) : a ||| 2 ^ i ≠ 0 := by
  intro h
  have h1 : (a ||| 2 ^ i).testBit i = true := by
    simp [Nat.testBit_or, Nat.testBit_two_pow_self]
  rw [h, Nat.zero_testBit] at h1
  exact Bool.noConfusion h1

theorem add_motor_ok (s : TState) (m : Nat) :
    (TimerAct.arm ∈ (StepTicker.add_motor_to_active_list s m).2 ↔
      (s.active_motor_bm = 0 ∧
        (StepTicker.add_motor_to_active_list s m).1.active_motor_bm ≠ 0)) ∧
    (TimerAct.disarm ∈ (StepTicker.add_motor_to_active_list s m).2 ↔
      ((StepTicker.add_motor_to_active_list s m).1.active_motor_bm = 0 ∧
        StepTicker.find_slot s m ≠ none)) := by
  unfold StepTicker.add_motor_to_active_list
  cases hfs : StepTicker.find_slot s m with
  | none => simp
  | some i =>
    by_cases h0 : s.active_motor_bm = 0
    · simp [h0, or_two_pow_ne_zero]
    · simp [h0, or_two_pow_ne_zero]

theorem remove_motor_ok (s : TState) (m : Nat) :
    (TimerAct.arm ∈ (StepTicker.remove_motor_from_active_list s m).2 ↔
      (s.active_motor_bm = 0 ∧
        (StepTicker.remove_motor_from_active_list s m).1.active_motor_bm ≠ 0)) ∧
    (TimerAct.disarm ∈ (StepTicker.remove_motor_from_active_list s m).2 ↔
      ((StepTicker.remove_motor_from_active_list s m).1.active_motor_bm = 0 ∧
        StepTicker.find_slot s m ≠ none)) := by
  unfold StepTicker.remove_motor_from_active_list StepTicker.remove_slot
  cases hfs : StepTicker.find_slot s m with
  | none => simp
  | some i =>
    dsimp only
    split_ifs with hz
    · norm_num at hz
      constructor
      · simp [hz]
      · simp [hz]
    · constructor
      · simp only [List.not_mem_nil, false_iff]
        rintro ⟨h1, h2⟩
        exact hz (by rw [h1, Nat.zero_and])
      · simp only [List.not_mem_nil, false_iff]
        rintro ⟨h1, h2⟩
        exact hz h1

theorem add_motor_armed (s : TState) (m : Nat)
    (h : s.armed ↔ s.active_motor_bm ≠ 0) :
    (StepTicker.add_motor_to_active_list s m).1.armed ↔
      (StepTicker.add_motor_to_active_list s m).1.active_motor_bm ≠ 0 := by
  unfold StepTicker.add_motor_to_active_list
  cases hfs : StepTicker.find_slot s m with
  | none => exact h
  | some i =>
    dsimp only
    by_cases h0 : s.active_motor_bm = 0
    · simp [h0, TState.armed, or_two_pow_ne_zero]
    · simp only [TState.armed] at h ⊢
      simp [h0, or_two_pow_ne_zero, h]

theorem remove_motor_armed (s : TState) (m : Nat)
    (h : s.armed ↔ s.active_motor_bm ≠ 0) :
    (StepTicker.remove_motor_from_active_list s m).1.armed ↔
      (StepTicker.remove_motor_from_active_list s m).1.active_motor_bm ≠ 0 := by
  unfold StepTicker.remove_motor_from_active_list StepTicker.remove_slot
  cases hfs : StepTicker.find_slot s m with
  | none => exact h
  | some i =>
    dsimp only
    split_ifs with hz
    · norm_num at hz
      simp [TState.armed, hz]
    · have hbm : s.active_motor_bm ≠ 0 := fun h1 => hz (by rw [h1, Nat.zero_and])
      norm_num at hz
      simp only [TState.armed] at h ⊢
      simp [hz, h, hbm]

theorem step_op_armed (s : TState) (op : MOp)
    (h : s.armed ↔ s.active_motor_bm ≠ 0) :
    (StepTicker.step_op s op).1.armed ↔ (StepTicker.step_op s op).1.active_motor_bm ≠ 0 := by
  cases op with
  | add m => exact add_motor_armed s m h
  | remove m => exact remove_motor_armed s m h

theorem ops_ok_all (s : TState) (ops : List MOp) : StepTicker.ops_ok s ops := by
  induction ops generalizing s with
  | nil => trivial
  | cons op rest ih =>
    simp only [StepTicker.ops_ok]
    refine ⟨?_, ?_, ih _⟩
    · cases op with
      | add m => exact (add_motor_ok s m).1
      | remove m => exact (remove_motor_ok s m).1
    · cases op with
      | add m => exact (add_motor_ok s m).2
      | remove m => exact (remove_motor_ok s m).2

theorem run_ops_armed (ops : List MOp) : ∀ s : TState,
    (s.armed ↔ s.active_motor_bm ≠ 0) →
    ((StepTicker.run_ops s ops).armed ↔ (StepTicker.run_ops s ops).active_motor_bm ≠ 0) := by
  induction ops with
  | nil => intro s h; exact h
  | cons op rest ih => intro s h; exact ih _ (step_op_armed s op h)

theorem initial_armed_iff (g : Fin 12 → Option Nat) (p : Nat) :
    ((StepTicker.initial g p).armed ↔ (StepTicker.initial g p).active_motor_bm ≠ 0) := by
  simp [StepTicker.initial, TState.armed]

/-- Counterexample to claim C9 as stated: from the freshly constructed ticker
(no motor active), removing the registered motor 7 performs the
MR1-reset-and-stop enable (source line 279 runs because `active_motor_bm`
is 0) although `active_motor_bm` does not transition to zero — it already was
zero — so the disarm is not performed exactly on the transitions to
zero. -/
theorem claim_c9_counterexample :
    TimerAct.disarm ∈
        (StepTicker.step_op (StepTicker.initial c9g 1000) (MOp.remove 7)).2 ∧
      ¬((StepTicker.initial c9g 1000).active_motor_bm ≠ 0 ∧
        (StepTicker.step_op (StepTicker.initial c9g 1000) (MOp.remove 7)).1.active_motor_bm =
          0) := by
  constructor
  · decide
  · decide

/-- Claim C9 as amended by the counterexample: over every sequence of
`add_motor_to_active_list` / `remove_motor_from_active_list` calls from the
constructor state, each call performs the arm sequence (timer enable and
reset, with the MR1 reset/stop bits cleared) exactly when it takes
`active_motor_bm` from zero to non-zero, and enables MR1 reset-and-stop
exactly when it found the motor and left `active_motor_bm` zero — every
transition to zero is such a call, but removing a registered motor while no
motor is active also redundantly re-enables it; consequently the timer is
armed (enabled, and not set to stop at the next MR1 match) iff some motor is
active. -/
theorem claim_c9_amended (g : Fin 12 → Option Nat) (p : Nat) (ops : List MOp) :
    StepTicker.ops_ok (StepTicker.initial g p) ops ∧
      ((StepTicker.run_ops (StepTicker.initial g p) ops).armed ↔
        (StepTicker.run_ops (StepTicker.initial g p) ops).active_motor_bm ≠ 0) :=
  ⟨ops_ok_all _ _, run_ops_armed ops _ (initial_armed_iff g p)⟩

theorem foldl_min_le_start {α : Type} (p : α → Bool) (f : α → Nat) :
    ∀ (l : List α) (a : Nat),
      l.foldl (fun acc x => if p x then min acc (f x) else acc) a ≤ a := by
  intro l
  induction l with
  | nil => intro a; exact le_refl a
  | cons y t ih =>
    intro a
    rw [List.foldl_cons]
    by_cases hy : p y
    · rw [if_pos hy]
      exact le_trans (ih (min a (f y))) (min_le_left _ _)
    · rw [if_neg hy]
      exact ih a

theorem foldl_min_le_elem {α : Type} (p : α → Bool) (f : α → Nat) :
    ∀ (l : List α) (a : Nat) (x : α), x ∈ l → p x = true →
      l.foldl (fun acc x => if p x then min acc (f x) else acc) a ≤ f x := by
  intro l
  induction l with
  | nil => intro a x hx; exact absurd hx (List.not_mem_nil x)
  | cons y t ih =>
    intro a x hx hpx
    rw [List.foldl_cons]
    rcases List.mem_cons.mp hx with rfl | hxt
    · rw [if_pos hpx]
      exact le_trans (foldl_min_le_start p f t _) (min_le_right _ _)
    · by_cases hy : p y
      · rw [if_pos hy]
        exact ih _ x hxt hpx
      · rw [if_neg hy]
        exact ih _ x hxt hpx

theorem foldl_min_attained {α : Type} (p : α → Bool) (f : α → Nat) :
    ∀ (l : List α) (a : Nat),
      l.foldl (fun acc x => if p x then min acc (f x) else acc) a = a ∨
        ∃ x, x ∈ l ∧ p x = true ∧
          l.foldl (fun acc x => if p x then min acc (f x) else acc) a = f x := by
  intro l
  induction l with
  | nil => intro a; exact Or.inl rfl
  | cons y t ih =>
    intro a
    rw [List.foldl_cons]
    by_cases hy : p y
    · rw [if_pos hy]
      rcases ih (min a (f y)) with h | ⟨x, hx, hpx, hfx⟩
      · rcases min_cases a (f y) with ⟨hmin, _⟩ | ⟨hmin, _⟩
        · exact Or.inl (h.trans hmin)
        · exact Or.inr ⟨y, List.mem_cons_self y t, hy, h.trans hmin⟩
      · exact Or.inr ⟨x, List.mem_cons_of_mem y hx, hpx, hfx⟩
    · rw [if_neg hy]
      rcases ih a with h | ⟨x, hx, hpx, hfx⟩
      · exact Or.inl h
      · exact Or.inr ⟨x, List.mem_cons_of_mem y hx, hpx, hfx⟩

theorem can_skip_eq (m : SM) (h1 : m.fx_counter ≤ m.fx_ticks_per_step)
    (h2 : m.fx_ticks_per_step < 2 ^ 64) :
    StepTicker.can_skip m = (m.fx_ticks_per_step - m.fx_counter) / 2 ^ 32 := by
  have hc : m.fx_counter < 2 ^ 64 := lt_of_le_of_lt h1 h2
  unfold StepTicker.can_skip
  rw [Nat.mod_eq_of_lt h2, Nat.mod_eq_of_lt hc]
  have e1 : m.fx_ticks_per_step + 2 ^ 64 - m.fx_counter =
      (m.fx_ticks_per_step - m.fx_counter) + 2 ^ 64 := by omega
  rw [e1, Nat.add_mod_right]
  have hlt64 : m.fx_ticks_per_step - m.fx_counter < 2 ^ 64 := by omega
  rw [Nat.mod_eq_of_lt hlt64]
  have hdiv : (m.fx_ticks_per_step - m.fx_counter) / 2 ^ 32 < 2 ^ 32 := by
    apply Nat.div_lt_of_lt_mul
    calc m.fx_ticks_per_step - m.fx_counter < 2 ^ 64 := hlt64
    _ = 2 ^ 32 * 2 ^ 32 := by norm_num
  exact Nat.mod_eq_of_lt hdiv

/-- Claim C1: in the overrun catch-up of the MR0 interrupt (source lines
197–228, entered when after a move finished the counter exceeds `period`),
provided each active motor's Q32.32 state is in range
(`fx_counter ≤ fx_ticks_per_step < 2^64`) and the timer quantities fit 32 bits:
the number of whole ticks skipped, `ticks_we_can_skip`, is exactly the minimum
of `ticks_to_skip = (TC + last_duration) / period` and, over every active
motor, `(fx_ticks_per_step - fx_counter) / 2^32` (it is a lower bound of all
of them and attains one); every active motor's `fx_counter` advances by
exactly `ticks_we_can_skip * 2^32`; the advanced `fx_counter` never exceeds
`fx_ticks_per_step` (no pulse is skipped); and when the minimum is 0 no
motor's `fx_counter` changes and MR0 is reprogrammed strictly past the
counter. -/
theorem claim_c1 (s : TState) (tc tc2 : Nat)
    (hper : 0 < s.period)
    (hfx : ∀ i : Fin 12, s.active_motor_bm.testBit i.1 = true →
        (s.motors i).fx_counter ≤ (s.motors i).fx_ticks_per_step ∧
        (s.motors i).fx_ticks_per_step < 2 ^ 64)
    (hrange : tc + s.last_duration + s.period < 2 ^ 32) :
    (StepTicker.ticks_we_can_skip s tc ≤ StepTicker.ticks_to_skip s tc ∧
      (∀ i : Fin 12, s.active_motor_bm.testBit i.1 = true →
        StepTicker.ticks_we_can_skip s tc ≤
          ((s.motors i).fx_ticks_per_step - (s.motors i).fx_counter) / 2 ^ 32) ∧
      (StepTicker.ticks_we_can_skip s tc = StepTicker.ticks_to_skip s tc ∨
        ∃ i : Fin 12, s.active_motor_bm.testBit i.1 = true ∧
          StepTicker.ticks_we_can_skip s tc =
            ((s.motors i).fx_ticks_per_step - (s.motors i).fx_counter) / 2 ^ 32)) ∧
    (∀ i : Fin 12, s.active_motor_bm.testBit i.1 = true →
      ((StepTicker.catch_up s tc tc2).motors i).fx_counter =
        (s.motors i).fx_counter + StepTicker.ticks_we_can_skip s tc * 2 ^ 32) ∧
    (∀ i : Fin 12, s.active_motor_bm.testBit i.1 = true →
      ((StepTicker.catch_up s tc tc2).motors i).fx_counter ≤
        (s.motors i).fx_ticks_per_step) ∧
    (StepTicker.ticks_we_can_skip s tc = 0 →
      (∀ i : Fin 12, ((StepTicker.catch_up s tc tc2).motors i).fx_counter =
          (s.motors i).fx_counter) ∧
      tc < (StepTicker.catch_up s tc tc2).mr0) := by
  have helem : ∀ i : Fin 12, s.active_motor_bm.testBit i.1 = true →
      StepTicker.ticks_we_can_skip s tc ≤
        ((s.motors i).fx_ticks_per_step - (s.motors i).fx_counter) / 2 ^ 32 := by
    intro i hi
    have h := foldl_min_le_elem (fun j : Fin 12 => s.active_motor_bm.testBit j.1)
      (fun j => StepTicker.can_skip (s.motors j)) (List.finRange 12)
      (StepTicker.ticks_to_skip s tc) i (List.mem_finRange i) hi
    simp only [] at h
    rw [can_skip_eq (s.motors i) (hfx i hi).1 (hfx i hi).2] at h
    exact h
  have hbound : ∀ i : Fin 12, s.active_motor_bm.testBit i.1 = true →
      (s.motors i).fx_counter + StepTicker.ticks_we_can_skip s tc * 2 ^ 32 ≤
        (s.motors i).fx_ticks_per_step := by
    intro i hi
    have h1 : StepTicker.ticks_we_can_skip s tc * 2 ^ 32 ≤
        ((s.motors i).fx_ticks_per_step - (s.motors i).fx_counter) / 2 ^ 32 * 2 ^ 32 :=
      Nat.mul_le_mul_right _ (helem i hi)
    have h2 := Nat.div_mul_le_self
      ((s.motors i).fx_ticks_per_step - (s.motors i).fx_counter) (2 ^ 32)
    have h3 := (hfx i hi).1
    omega
  have hadv : ∀ i : Fin 12, s.active_motor_bm.testBit i.1 = true →
      ((StepTicker.catch_up s tc tc2).motors i).fx_counter =
        (s.motors i).fx_counter + StepTicker.ticks_we_can_skip s tc * 2 ^ 32 := by
    intro i hi
    simp only [StepTicker.catch_up]
    rw [if_pos hi]
    exact Nat.mod_eq_of_lt (lt_of_le_of_lt (hbound i hi) (hfx i hi).2)
  refine ⟨⟨?_, helem, ?_⟩, hadv, ?_, ?_⟩
  · exact foldl_min_le_start _ _ _ _
  · rcases foldl_min_attained (fun j : Fin 12 => s.active_motor_bm.testBit j.1)
      (fun j => StepTicker.can_skip (s.motors j)) (List.finRange 12)
      (StepTicker.ticks_to_skip s tc) with h | ⟨i, _, hpi, heq⟩
    · exact Or.inl h
    · refine Or.inr ⟨i, hpi, ?_⟩
      rw [← can_skip_eq (s.motors i) (hfx i hpi).1 (hfx i hpi).2]
      exact heq
  · intro i hi
    rw [hadv i hi]
    exact hbound i hi
  · intro h0
    constructor
    · intro i
      by_cases hi : s.active_motor_bm.testBit i.1 = true
      · rw [hadv i hi, h0]
        simp
      · simp only [StepTicker.catch_up]
        rw [if_neg hi]
    · simp only [StepTicker.catch_up]
      have hts : StepTicker.ticks_to_skip s tc * s.period ≤ tc + s.last_duration :=
        Nat.div_mul_le_self _ _
      have hm : (StepTicker.ticks_to_skip s tc + 1) * s.period < 2 ^ 32 := by
        rw [Nat.add_mul, one_mul]
        linarith [hts, hrange]
      rw [Nat.mod_eq_of_lt hm, Nat.add_mul, one_mul]
      have hdm := Nat.div_add_mod (tc + s.last_duration) s.period
      have hml : (tc + s.last_duration) % s.period < s.period := Nat.mod_lt _ hper
      have hcomm : s.period * StepTicker.ticks_to_skip s tc =
          StepTicker.ticks_to_skip s tc * s.period := Nat.mul_comm _ _
      have hdm2 : StepTicker.ticks_to_skip s tc * s.period +
          (tc + s.last_duration) % s.period = tc + s.last_duration := by
        rw [← hcomm]
        exact hdm
      linarith [hdm2, hml]

/-- Witness for claim C1 at `c1s` (two active motors, counter 250 past a
period of 100). -/
theorem claim_c1_witness :
    StepTicker.ticks_we_can_skip c1s 250 ≤ StepTicker.ticks_to_skip c1s 250 ∧
      ((StepTicker.catch_up c1s 250 260).motors 0).fx_counter =
        (c1s.motors 0).fx_counter + StepTicker.ticks_we_can_skip c1s 250 * 2 ^ 32 :=
  ⟨(claim_c1 c1s 250 260 (by decide) (by decide) (by decide)).1.1,
   (claim_c1 c1s 250 260 (by decide) (by decide) (by decide)).2.1 0 (by decide)⟩

theorem sep_from_append (j : Fin 12) : ∀ (t1 t2 : List PinEv) (a : Bool),
    StepTicker.sep_from j a (t1 ++ t2) =
      (StepTicker.sep_from j a t1 &&
        StepTicker.sep_from j (StepTicker.armed_after j a t1) t2) := by
  intro t1
  induction t1 with
  | nil =>
    intro t2 a
    simp [StepTicker.sep_from, StepTicker.armed_after]
  | cons e t ih =>
    intro t2 a
    cases e with
    | assert i =>
      by_cases hij : i = j
      · subst hij
        simp only [List.cons_append, StepTicker.sep_from, StepTicker.armed_after, if_pos rfl,
          if_true, List.append_eq, ih, Bool.and_assoc]
      · simp only [List.cons_append, StepTicker.sep_from, StepTicker.armed_after, if_neg hij,
          List.append_eq, ih]
    | unstep i =>
      simp only [List.cons_append, StepTicker.sep_from, StepTicker.armed_after, List.append_eq, ih]

theorem armed_after_append (j : Fin 12) : ∀ (t1 t2 : List PinEv) (a : Bool),
    StepTicker.armed_after j a (t1 ++ t2) =
      StepTicker.armed_after j (StepTicker.armed_after j a t1) t2 := by
  intro t1
  induction t1 with
  | nil =>
    intro t2 a
    simp [StepTicker.armed_after]
  | cons e t ih =>
    intro t2 a
    cases e with
    | assert i => simp only [List.cons_append, StepTicker.armed_after, List.append_eq, ih]
    | unstep i => simp only [List.cons_append, StepTicker.armed_after, List.append_eq, ih]

theorem sep_no_assert (j : Fin 12) : ∀ (tr : List PinEv), PinEv.assert j ∉ tr →
    ∀ a : Bool, StepTicker.sep_from j a tr = true := by
  intro tr
  induction tr with
  | nil => intro _ a; rfl
  | cons e t ih =>
    intro hmem a
    have hmt : PinEv.assert j ∉ t := fun hc => hmem (List.mem_cons_of_mem e hc)
    cases e with
    | assert i =>
      have hij : ¬ i = j := by
        intro hc
        exact hmem (by rw [hc]; exact List.mem_cons_self _ _)
      simp only [StepTicker.sep_from, if_neg hij]
      exact ih hmt a
    | unstep i =>
      simp only [StepTicker.sep_from]
      exact ih hmt _

theorem armed_after_no_assert_false (j : Fin 12) : ∀ (tr : List PinEv),
    PinEv.assert j ∉ tr → StepTicker.armed_after j false tr = false := by
  intro tr
  induction tr with
  | nil => intro _; rfl
  | cons e t ih =>
    intro hmem
    have hmt : PinEv.assert j ∉ t := fun hc => hmem (List.mem_cons_of_mem e hc)
    cases e with
    | assert i =>
      have hij : ¬ i = j := by
        intro hc
        exact hmem (by rw [hc]; exact List.mem_cons_self _ _)
      simp only [StepTicker.armed_after, if_neg hij]
      exact ih hmt
    | unstep i =>
      simp only [StepTicker.armed_after]
      by_cases hij : i = j
      · rw [if_pos hij]
        exact ih hmt
      · rw [if_neg hij]
        exact ih hmt

theorem armed_after_unstep_mem (j : Fin 12) : ∀ (tr : List PinEv),
    PinEv.assert j ∉ tr → PinEv.unstep j ∈ tr →
    ∀ a : Bool, StepTicker.armed_after j a tr = false := by
  intro tr
  induction tr with
  | nil => intro _ hmem a; exact absurd hmem (List.not_mem_nil _)
  | cons e t ih =>
    intro hna hmem a
    have hnat : PinEv.assert j ∉ t := fun hc => hna (List.mem_cons_of_mem e hc)
    cases e with
    | assert i =>
      have hij : ¬ i = j := by
        intro hc
        exact hna (by rw [hc]; exact List.mem_cons_self _ _)
      have hmt : PinEv.unstep j ∈ t := by
        rcases List.mem_cons.mp hmem with hc | hc
        · exact absurd hc (by simp)
        · exact hc
      simp only [StepTicker.armed_after, if_neg hij]
      exact ih hnat hmt _
    | unstep i =>
      by_cases hij : i = j
      · simp only [StepTicker.armed_after, if_pos hij]
        exact armed_after_no_assert_false j t hnat
      · have hmt : PinEv.unstep j ∈ t := by
          rcases List.mem_cons.mp hmem with hc | hc
          · exact absurd hc.symm (by simp [hij])
          · exact hc
        simp only [StepTicker.armed_after, if_neg hij]
        exact ih hnat hmt _

theorem armed_after_no_events (j : Fin 12) : ∀ (tr : List PinEv),
    PinEv.assert j ∉ tr → PinEv.unstep j ∉ tr →
    ∀ a : Bool, StepTicker.armed_after j a tr = a := by
  intro tr
  induction tr with
  | nil => intro _ _ a; rfl
  | cons e t ih =>
    intro hna hnu a
    have hnat : PinEv.assert j ∉ t := fun hc => hna (List.mem_cons_of_mem e hc)
    have hnut : PinEv.unstep j ∉ t := fun hc => hnu (List.mem_cons_of_mem e hc)
    cases e with
    | assert i =>
      have hij : ¬ i = j := by
        intro hc
        exact hna (by rw [hc]; exact List.mem_cons_self _ _)
      simp only [StepTicker.armed_after, if_neg hij]
      exact ih hnat hnut a
    | unstep i =>
      have hij : ¬ i = j := by
        intro hc
        exact hnu (by rw [hc]; exact List.mem_cons_self _ _)
      simp only [StepTicker.armed_after, if_neg hij]
      exact ih hnat hnut a

theorem mem_assert_trace (j : Fin 12) (g : Fin 12 → Bool) : ∀ (l : List (Fin 12)),
    (PinEv.assert j ∈ l.flatMap fun i => if g i then [PinEv.assert i] else []) ↔
      (j ∈ l ∧ g j = true) := by
  intro l
  rw [List.mem_flatMap]
  constructor
  · rintro ⟨i, hil, hmem⟩
    revert hmem
    by_cases hg : g i = true
    · rw [if_pos hg]
      intro hmem
      have : i = j := by
        have := List.mem_singleton.mp hmem
        injection this.symm   
      subst this
      exact ⟨hil, hg⟩
    · rw [if_neg hg]
      intro hmem
      exact absurd hmem (List.not_mem_nil _)
  · rintro ⟨hjl, hg⟩
    exact ⟨j, hjl, by rw [if_pos hg]; exact List.mem_singleton_self _⟩

theorem not_mem_unstep_assert_trace (j : Fin 12) (g : Fin 12 → Bool) (l : List (Fin 12)) :
    PinEv.unstep j ∉ l.flatMap fun i => if g i then [PinEv.assert i] else [] := by
  rw [List.mem_flatMap]
  rintro ⟨i, _, hmem⟩
  revert hmem
  split
  · intro hmem
    have := List.mem_singleton.mp hmem
    exact PinEv.noConfusion this
  · exact List.not_mem_nil _

theorem not_mem_assert_unstep_trace (j : Fin 12) (g : Fin 12 → Bool) (l : List (Fin 12)) :
    PinEv.assert j ∉ l.flatMap fun i => if g i then [PinEv.unstep i] else [] := by
  rw [List.mem_flatMap]
  rintro ⟨i, _, hmem⟩
  revert hmem
  split
  · intro hmem
    have := List.mem_singleton.mp hmem
    exact PinEv.noConfusion this
  · exact List.not_mem_nil _

theorem mem_unstep_trace (j : Fin 12) (g : Fin 12 → Bool) (l : List (Fin 12))
    (hjl : j ∈ l) (hg : g j = true) :
    PinEv.unstep j ∈ l.flatMap fun i => if g i then [PinEv.unstep i] else [] := by
  rw [List.mem_flatMap]
  exact ⟨j, hjl, by rw [if_pos hg]; exact List.mem_singleton_self _⟩

theorem sep_assert_trace (j : Fin 12) (g : Fin 12 → Bool) : ∀ (l : List (Fin 12)), l.Nodup →
    StepTicker.sep_from j false (l.flatMap fun i => if g i then [PinEv.assert i] else []) =
      true := by
  intro l
  induction l with
  | nil => intro _; rfl
  | cons y t ih =>
    intro hnd
    have hyt : y ∉ t := (List.nodup_cons.mp hnd).1
    have hndt : t.Nodup := (List.nodup_cons.mp hnd).2
    rw [List.flatMap_cons]
    by_cases hg : g y = true
    · rw [if_pos hg, List.singleton_append]
      by_cases hyj : y = j
      · simp only [StepTicker.sep_from, if_pos hyj, Bool.not_false, Bool.true_and]
        apply sep_no_assert
        rw [mem_assert_trace]
        rintro ⟨hc, _⟩
        exact hyt (by rw [hyj]; exact hc)
      · simp only [StepTicker.sep_from, if_neg hyj]
        exact ih hndt
    · rw [if_neg hg, List.nil_append]
      exact ih hndt

theorem armed_assert_trace (j : Fin 12) (g : Fin 12 → Bool) : ∀ (l : List (Fin 12)), l.Nodup →
    (StepTicker.armed_after j false (l.flatMap fun i => if g i then [PinEv.assert i] else []) =
      true ↔ (j ∈ l ∧ g j = true)) := by
  intro l
  induction l with
  | nil =>
    intro _
    simp [StepTicker.armed_after]
  | cons y t ih =>
    intro hnd
    have hyt : y ∉ t := (List.nodup_cons.mp hnd).1
    have hndt : t.Nodup := (List.nodup_cons.mp hnd).2
    rw [List.flatMap_cons]
    by_cases hg : g y = true
    · rw [if_pos hg, List.singleton_append]
      by_cases hyj : y = j
      · simp only [StepTicker.armed_after, if_pos hyj]
        have hrest : StepTicker.armed_after j true
            (t.flatMap fun i => if g i then [PinEv.assert i] else []) = true := by
          apply armed_after_no_events
          · rw [mem_assert_trace]
            rintro ⟨hc, _⟩
            exact hyt (by rw [hyj]; exact hc)
          · exact not_mem_unstep_assert_trace j g t
        rw [hrest]
        constructor
        · intro _
          refine ⟨?_, ?_⟩
          · rw [← hyj]
            exact List.mem_cons_self y t
          · rw [← hyj]
            exact hg
        · intro _
          rfl
      · simp only [StepTicker.armed_after, if_neg hyj]
        rw [ih hndt]
        constructor
        · rintro ⟨hjt, hgj⟩
          exact ⟨List.mem_cons_of_mem y hjt, hgj⟩
        · rintro ⟨hjl, hgj⟩
          rcases List.mem_cons.mp hjl with hc | hc
          · exact absurd hc.symm hyj
          · exact ⟨hc, hgj⟩
    · rw [if_neg hg, List.nil_append, ih hndt]
      constructor
      · rintro ⟨hjt, hgj⟩
        exact ⟨List.mem_cons_of_mem y hjt, hgj⟩
      · rintro ⟨hjl, hgj⟩
        rcases List.mem_cons.mp hjl with hc | hc
        · rw [hc] at hgj
          exact absurd hgj hg
        · exact ⟨hc, hgj⟩

theorem tick_pass_trace (s : TState) :
    (StepTicker.tick_pass s).2 = (List.finRange 12).flatMap fun i =>
      if s.active_motor_bm.testBit i.1 && (SM.tick (s.motors i)).2.1 then [PinEv.assert i]
      else [] := rfl

theorem reset_tick_trace (s : TState) :
    (StepTicker.reset_tick s).2 = (List.finRange 12).flatMap fun i =>
      if s.active_motor_bm.testBit i.1 then [PinEv.unstep i] else [] := rfl

theorem tick_pass_rsp (s : TState) (j : Fin 12)
    (h : (s.active_motor_bm.testBit j.1 && (SM.tick (s.motors j)).2.1) = true) :
    (StepTicker.tick_pass s).1.reset_step_pins = true := by
  have hany : (List.finRange 12).any
      (fun i => s.active_motor_bm.testBit i.1 && (SM.tick (s.motors i)).2.1) = true :=
    List.any_eq_true.mpr ⟨j, List.mem_finRange j, h⟩
  show (s.reset_step_pins ||
      (List.finRange 12).any
        (fun i => s.active_motor_bm.testBit i.1 && (SM.tick (s.motors i)).2.1)) = true
  rw [hany, Bool.or_true]

theorem signal_slot_mr1i (t : TState) (i : Fin 12) :
    (StepTicker.signal_slot t i).mr1i = t.mr1i := by
  unfold StepTicker.signal_slot StepTicker.remove_slot
  dsimp only
  split <;> rfl

theorem foldl_signal_mr1i : ∀ (l : List (Fin 12)) (t : TState),
    (l.foldl (fun t i =>
      if t.active_motor_bm.testBit i.1 && (t.motors i).is_move_finished then
        StepTicker.signal_slot t i
      else t) t).mr1i = t.mr1i := by
  intro l
  induction l with
  | nil => intro t; rfl
  | cons y ys ih =>
    intro t
    rw [List.foldl_cons, ih]
    by_cases h : (t.active_motor_bm.testBit y.1 && (t.motors y).is_move_finished) = true
    · rw [if_pos h, signal_slot_mr1i]
    · rw [if_neg h]

theorem signal_moves_finished_mr1i (s : TState) :
    (StepTicker.signal_moves_finished s).mr1i = s.mr1i := by
  unfold StepTicker.signal_moves_finished
  exact foldl_signal_mr1i _ _

theorem catch_up_mr1i (s : TState) (tc tc2 : Nat) :
    (StepTicker.catch_up s tc tc2).mr1i = s.mr1i := rfl

theorem handler_ir0_false (s : TState) (ir1 : Bool) (tc tc2 : Nat) :
    StepTicker.TIMER0_IRQHandler s ir1 false tc tc2 =
      (if ir1 then StepTicker.reset_tick { s with mr1i := false } else (s, [])) := by
  unfold StepTicker.TIMER0_IRQHandler
  simp

theorem mr0_finish_mr1i (s2 : TState) (tc tc2 : Nat) (h : s2.reset_step_pins = true) :
    (StepTicker.mr0_finish s2 tc tc2).mr1i = true := by
  unfold StepTicker.mr0_finish
  rw [if_pos h]
  dsimp only
  split
  · split
    · show (StepTicker.catch_up (StepTicker.signal_moves_finished _) tc tc2).mr1i = true
      rw [catch_up_mr1i, signal_moves_finished_mr1i]
    · show (StepTicker.signal_moves_finished _).mr1i = true
      rw [signal_moves_finished_mr1i]
  · rfl

theorem handler_trace_eq (s : TState) (ir1 : Bool) (tc tc2 : Nat) :
    (StepTicker.TIMER0_IRQHandler s ir1 true tc tc2).2 =
      (if ir1 then StepTicker.reset_tick { s with mr1i := false } else (s, [])).2 ++
        (StepTicker.tick_pass
          (if ir1 then StepTicker.reset_tick { s with mr1i := false } else (s, [])).1).2 :=
  rfl

theorem handler_state_eq (s : TState) (ir1 : Bool) (tc tc2 : Nat) :
    (StepTicker.TIMER0_IRQHandler s ir1 true tc tc2).1 =
      StepTicker.mr0_finish
        (StepTicker.tick_pass
          (if ir1 then StepTicker.reset_tick { s with mr1i := false } else (s, [])).1).1
        tc tc2 :=
  rfl

theorem handler_sep (j : Fin 12) (s : TState) (ir1 ir0 : Bool) (tc tc2 : Nat) (a : Bool)
    (hact : s.active_motor_bm.testBit j.1 = true)
    (hinv : a = true → s.mr1i = true)
    (hv : s.mr1i = true → ir1 = true) :
    StepTicker.sep_from j a (StepTicker.TIMER0_IRQHandler s ir1 ir0 tc tc2).2 = true ∧
    (StepTicker.armed_after j a (StepTicker.TIMER0_IRQHandler s ir1 ir0 tc tc2).2 = true →
      (StepTicker.TIMER0_IRQHandler s ir1 ir0 tc tc2).1.mr1i = true) := by
  cases ir1 with
  | false =>
    have ha : a = false := by
      cases a with
      | false => rfl
      | true => exact absurd (hv (hinv rfl)) (by simp)
    subst ha
    cases ir0 with
    | false =>
      exact ⟨rfl, fun h => Bool.noConfusion h⟩
    | true =>
      have htr : (StepTicker.TIMER0_IRQHandler s false true tc tc2).2 =
          (StepTicker.tick_pass s).2 := rfl
      have hst : (StepTicker.TIMER0_IRQHandler s false true tc tc2).1 =
          StepTicker.mr0_finish (StepTicker.tick_pass s).1 tc tc2 := rfl
      constructor
      · rw [htr, tick_pass_trace]
        exact sep_assert_trace j _ _ (List.nodup_finRange 12)
      · intro h
        rw [htr, tick_pass_trace,
          armed_assert_trace j _ _ (List.nodup_finRange 12)] at h
        rw [hst]
        exact mr0_finish_mr1i _ tc tc2 (tick_pass_rsp s j h.2)
  | true =>
    have hrt_sep : StepTicker.sep_from j a
        (StepTicker.reset_tick { s with mr1i := false }).2 = true := by
      rw [reset_tick_trace]
      exact sep_no_assert j _ (not_mem_assert_unstep_trace j _ _) a
    have hrt_armed : StepTicker.armed_after j a
        (StepTicker.reset_tick { s with mr1i := false }).2 = false := by
      rw [reset_tick_trace]
      exact armed_after_unstep_mem j _ (not_mem_assert_unstep_trace j _ _)
        (mem_unstep_trace j _ _ (List.mem_finRange j) hact) a
    cases ir0 with
    | false =>
      have htr : (StepTicker.TIMER0_IRQHandler s true false tc tc2).2 =
          (StepTicker.reset_tick { s with mr1i := false }).2 := rfl
      constructor
      · rw [htr]
        exact hrt_sep
      · intro h
        rw [htr, hrt_armed] at h
        exact Bool.noConfusion h
    | true =>
      have htr : (StepTicker.TIMER0_IRQHandler s true true tc tc2).2 =
          (StepTicker.reset_tick { s with mr1i := false }).2 ++
            (StepTicker.tick_pass
              (StepTicker.reset_tick { s with mr1i := false }).1).2 := rfl
      have hst : (StepTicker.TIMER0_IRQHandler s true true tc tc2).1 =
          StepTicker.mr0_finish
            (StepTicker.tick_pass
              (StepTicker.reset_tick { s with mr1i := false }).1).1 tc tc2 := rfl
      constructor
      · rw [htr, sep_from_append, hrt_sep, hrt_armed, Bool.true_and, tick_pass_trace]
        exact sep_assert_trace j _ _ (List.nodup_finRange 12)
      · intro h
        rw [htr, armed_after_append, hrt_armed, tick_pass_trace,
          armed_assert_trace j _ _ (List.nodup_finRange 12)] at h
        rw [hst]
        exact mr0_finish_mr1i _ tc tc2 (tick_pass_rsp _ j h.2)

theorem run_sep (j : Fin 12) : ∀ (irs : List IrqIn) (s : TState) (a : Bool),
    StepTicker.valid_run s irs = true →
    StepTicker.active_throughout j s irs = true →
    (a = true → s.mr1i = true) →
    StepTicker.sep_from j a (StepTicker.run s irs).2 = true := by
  intro irs
  induction irs with
  | nil => intro s a _ _ _; rfl
  | cons e rest ih =>
    intro s a hv hact hinv
    simp only [StepTicker.valid_run] at hv
    simp only [StepTicker.active_throughout] at hact
    rw [Bool.and_eq_true] at hv hact
    obtain ⟨hv1, hv2⟩ := hv
    obtain ⟨ha1, ha2⟩ := hact
    have hvimp : s.mr1i = true → e.ir1 = true := by
      intro hm
      rw [hm] at hv1
      simpa using hv1
    have hs := handler_sep j s e.ir1 e.ir0 e.tc e.tc2 a ha1 hinv hvimp
    have htr : (StepTicker.run s (e :: rest)).2 =
        (StepTicker.TIMER0_IRQHandler s e.ir1 e.ir0 e.tc e.tc2).2 ++
          (StepTicker.run (StepTicker.TIMER0_IRQHandler s e.ir1 e.ir0 e.tc e.tc2).1 rest).2 :=
      rfl
    rw [htr, sep_from_append, hs.1, Bool.true_and]
    exact ih _ _ hv2 ha2 hs.2

/-- Claim C2: when both MR1 and MR0 match flags are pending, the handler's
event trace is exactly the MR1 path (clear the MR1-interrupt enable, `unstep`
every active motor — only unstep events) followed by the MR0 step pass (only
assert events), so the MR1 path runs before any motor's `tick()`; and over any
run of invocations satisfying the hardware constraint (`valid_run`: a pending
MR1-interrupt enable makes MR1 fire by the next invocation) in which motor `j`
stays active, the trace never contains two step-pin assertions of motor `j`
without an intervening unstep of that pin (`sep_from j false`). -/
theorem claim_c2
    (s : TState) (tc tc2 : Nat) (j : Fin 12) (s0 : TState) (irs : List IrqIn) :
    ((StepTicker.TIMER0_IRQHandler s true true tc tc2).2 =
        (StepTicker.reset_tick { s with mr1i := false }).2 ++
          (StepTicker.tick_pass (StepTicker.reset_tick { s with mr1i := false }).1).2 ∧
      (∀ e ∈ (StepTicker.reset_tick { s with mr1i := false }).2, ∃ i, e = PinEv.unstep i) ∧
      (∀ e ∈ (StepTicker.tick_pass (StepTicker.reset_tick { s with mr1i := false }).1).2,
        ∃ i, e = PinEv.assert i)) ∧
    (StepTicker.valid_run s0 irs = true →
      StepTicker.active_throughout j s0 irs = true →
      StepTicker.sep_from j false (StepTicker.run s0 irs).2 = true) := by
  refine ⟨⟨rfl, ?_, ?_⟩, ?_⟩
  · intro e he
    rw [reset_tick_trace] at he
    rcases List.mem_flatMap.mp he with ⟨i, _, hmem⟩
    revert hmem
    split
    · intro hmem
      exact ⟨i, List.mem_singleton.mp hmem⟩
    · intro hmem
      exact absurd hmem (List.not_mem_nil _)
  · intro e he
    rw [tick_pass_trace] at he
    rcases List.mem_flatMap.mp he with ⟨i, _, hmem⟩
    revert hmem
    split
    · intro hmem
      exact ⟨i, List.mem_singleton.mp hmem⟩
    · intro hmem
      exact absurd hmem (List.not_mem_nil _)
  · intro hv hact
    exact run_sep j irs s0 false hv hact (fun h => Bool.noConfusion h)

/-- Witness for claim C2: a two-invocation run on `c2s` (motor 0 pulsing
every tick), the first MR0-only, the second with both MR1 and MR0 pending. -/
theorem claim_c2_witness :
    StepTicker.valid_run c2s c2irs = true ∧
      StepTicker.active_throughout 0 c2s c2irs = true ∧
      StepTicker.sep_from 0 false (StepTicker.run c2s c2irs).2 = true :=
  ⟨by decide, by decide,
   (claim_c2 c2s 0 0 0 c2s c2irs).2 (by decide) (by decide)⟩
